import Mathlib

/-!
Verification development for the `conversor` desktop file-converter
(`conversor_windows.py`).  The conversion core is shallowly embedded:

* the filesystem is an association list from path strings to abstract
  contents (`Bytes`); for a PDF file each content atom stands for one page,
  so PDF page counts are content lengths;
* external libraries (PIL, PyMuPDF, pypdf, LibreOffice) are oracles in an
  `Env` record: availability flags, per-file success flags and the bytes
  they would produce.  The control flow around them is translated from the
  source; the oracles stand only for the out-of-scope library internals;
* the Tk UI is dropped; `log_cb` / log-panel writes are no-ops and the
  message boxes are represented by the returned outcome values.
-/

namespace Conversor

/-- Abstract file contents.  For PDF files, each element models one page. -/
abbrev Bytes := List Nat

/-- `OUTPUT_FORMATS` from the source (the UI combobox values). -/
def OUTPUT_FORMATS : List String := ["pdf", "jpg", "png", "webp", "tiff", "bmp", "txt"]

/-- `OFFICE_EXTS` from the source. -/
def OFFICE_EXTS : List String :=
  [".doc", ".docx", ".odt", ".rtf", ".txt",
   ".xls", ".xlsx", ".ods", ".csv",
   ".ppt", ".pptx", ".odp"]

/-- `IMAGE_EXTS` from the source. -/
def IMAGE_EXTS : List String :=
  [".jpg", ".jpeg", ".png", ".webp", ".tif", ".tiff", ".bmp", ".gif", ".heic", ".heif"]

/-- The raster output tuple `("jpg","png","webp","tiff","bmp")` used at the
PDF→image branch of `convert_all` and in `convert_image_file`. -/
def RASTER_FORMATS : List String := ["jpg", "png", "webp", "tiff", "bmp"]

/-- The `bad` character list of `sanitize_basename`. -/
def badChars : List Char := ['\\', '/', ':', '*', '?', '\"', '<', '>', '|']

/-- Python `str.strip()`: drop leading and trailing whitespace. -/
def stripChars (l : List Char) : List Char :=
  ((l.dropWhile Char.isWhitespace).reverse.dropWhile Char.isWhitespace).reverse

/-- `sanitize_basename`: replace each bad character by `_`, strip
surrounding whitespace, and fall back to `"arquivo"` when empty. -/
def sanitize_basename (name : String) : String :=
  let l := name.data.map (fun c => if c ∈ badChars then '_' else c)
  let l := stripChars l
  if l = [] then "arquivo" else String.mk l

/-! ### Path helpers (Python `pathlib` behaviour on the string level)

Paths are plain strings with `/` as separator.  `pathName` is `Path.name`
(everything after the last slash), `pyStem` / `pySuffix` are `Path.stem` /
`Path.suffix` (the suffix starts at the last dot of the name, provided
that dot is neither the first nor the last character), `fileExt` is
`in_path.suffix.lower()` and `dirName` is `Path.parent` as used for
`safe_mkdir(out.parent)`. -/

/-- Final path component (`Path.name`): the characters after the last
`'/'`. -/
def pathName (p : String) : String :=
  String.mk ((p.data.reverse.takeWhile (fun c => c != '/')).reverse)

/-- `Path.suffix` on the name's characters.  `ext` is the run of
characters after the last dot (computed from the right); the suffix is
`'.' :: ext` exactly when the dot is neither the last character
(`0 < ext.length`) nor the first (`ext.length + 1 < n.length`, which also
fails when there is no dot at all). -/
def pySuffixChars (n : List Char) : List Char :=
  let ext := n.reverse.takeWhile (fun c => c != '.')
  if 0 < ext.length ∧ ext.length + 1 < n.length then '.' :: ext.reverse else []

/-- `Path.stem`: the name minus its suffix. -/
def pyStem (p : String) : String :=
  let n := (pathName p).data
  String.mk (n.take (n.length - (pySuffixChars n).length))

/-- `Path.suffix`. -/
def pySuffix (p : String) : String := String.mk (pySuffixChars (pathName p).data)

/-- Python `str.lower()` (character-wise). -/
def pyLower (s : String) : String := String.mk (s.data.map Char.toLower)

/-- Python `str.endswith(t)`. -/
def pyEndsWith (s t : String) : Bool := t.data.isSuffixOf s.data

/-- `in_path.suffix.lower()` — the extension used by the dispatcher. -/
def fileExt (p : String) : String := pyLower (pySuffix p)

/-- Parent directory of a path string (`out.parent`): the characters
before the last `'/'`, empty when there is none. -/
def dirName (p : String) : String :=
  String.mk (((p.data.reverse.dropWhile (fun c => c != '/')).drop 1).reverse)

/-! ### Decimal formatting: Python's `f"{i:03d}"` -/

/-- Decimal digit characters of `n`, most significant first, with a fuel
argument to keep the recursion structural (`fuel > n` suffices). -/
def natDigsF : Nat → Nat → List Char
  | 0, _ => []
  | fuel + 1, n =>
    if n < 10 then [Nat.digitChar n]
    else natDigsF fuel (n / 10) ++ [Nat.digitChar (n % 10)]

/-- Decimal digit characters of `n`, most significant first. -/
def natDigs (n : Nat) : List Char := natDigsF (n + 1) n

/-- Python `f"{i:03d}"`: the decimal digits of `i`, left-padded with zeros
to at least three characters. -/
def fmt03 (n : Nat) : String :=
  String.mk ((if n < 10 then ['0', '0'] else if n < 100 then ['0'] else []) ++ natDigs n)

/-! ### Filesystem model -/

/-- Filesystem state: files (path → contents, no duplicate paths are ever
created by the operations below) and the set of directories known to
exist. -/
structure FS where
  files : List (String × Bytes)
  dirs : List String
deriving DecidableEq

/-- Association-list lookup for file contents. -/
def lookupB : List (String × Bytes) → String → Option Bytes
  | [], _ => none
  | (q, b) :: t, p => if q = p then some b else lookupB t p

/-- Remove every entry for a path. -/
def removeKey : List (String × Bytes) → String → List (String × Bytes)
  | [], _ => []
  | (q, b) :: t, p => if q = p then removeKey t p else (q, b) :: removeKey t p

/-- Read a file's contents. -/
def FS.read (fs : FS) (p : String) : Option Bytes := lookupB fs.files p

/-- `Path.exists()` for files. -/
def FS.existsF (fs : FS) (p : String) : Bool := (fs.read p).isSome

/-- Write (create or overwrite) a file. -/
def FS.write (fs : FS) (p : String) (b : Bytes) : FS :=
  { fs with files := removeKey fs.files p ++ [(p, b)] }

/-- `Path.unlink()`. -/
def FS.unlink (fs : FS) (p : String) : FS :=
  { fs with files := removeKey fs.files p }

/-- `safe_mkdir`: `mkdir(parents=True, exist_ok=True)` — record the
directory as existing. -/
def safe_mkdir (fs : FS) (p : String) : FS :=
  if p ∈ fs.dirs then fs else { fs with dirs := fs.dirs ++ [p] }

instance {ε α : Type} [DecidableEq ε] [DecidableEq α] : DecidableEq (Except ε α) :=
  fun x y =>
  match x, y with
  | .ok a, .ok b => if h : a = b then .isTrue (by rw [h]) else .isFalse (by simp [h])
  | .error a, .error b => if h : a = b then .isTrue (by rw [h]) else .isFalse (by simp [h])
  | .ok _, .error _ => .isFalse (by simp)
  | .error _, .ok _ => .isFalse (by simp)

/-! ### Error kinds and external environment -/

/-- The spec's error taxonomy (§7).  In the source all three are
`RuntimeError`/`ValueError` raises distinguished by their messages. -/
inductive ConvError
  | unsupportedConversion
  | missingDependency
  | conversionError
deriving DecidableEq

/-- One adapter per spec component, used to trace which adapter the
dispatcher invokes. -/
inductive Adapter
  | pdfTextExtract
  | byteCopy
  | imageToPdfA
  | officeToPdfA
  | pdfToImagesA
  | convertImageA
deriving DecidableEq

/-- Oracles for the external libraries and processes (out of scope per the
spec): availability flags, whether a given call succeeds, and the contents
the library would produce.  The surrounding control flow is translated
from the source. -/
structure Env where
  hasPyMuPDF : Bool
  hasPyPDF : Bool
  which : String → Option String
  officeRunOk : String → Bool
  officeProducedName : String → String
  officePdfBytes : String → Bytes
  pdfTextBytes : String → Bytes
  imageAsPdfBytes : String → Bytes
  imgDecodeOk : String → Bool
  encodeImage : String → String → Nat → Bytes
  pdfOpenOk : String → Bool
  renderPage : String → Nat → Nat → Bytes
  npages : String → Nat
  unlinkOk : String → Bool

/-! ### Adapters (translated from the source) -/

/-- `pdf_to_text_pymupdf`: raise `MissingDependency` without PyMuPDF;
mkdir the parent; open the document (failure → `ConversionError`); write
the joined page text. -/
def pdf_to_text_pymupdf (env : Env) (fs : FS) (pdf_path out_txt : String) :
    FS × Option ConvError :=
  if ¬ env.hasPyMuPDF then (fs, some .missingDependency)
  else
    let fs := safe_mkdir fs (dirName out_txt)
    if ¬ env.pdfOpenOk pdf_path then (fs, some .conversionError)
    else (fs.write out_txt (env.pdfTextBytes pdf_path), none)

/-- `convert_image_file`: mkdir the parent, open the image (failure →
`ConversionError`), then one save branch per output format; any other
format raises (`ValueError`). -/
def convert_image_file (env : Env) (fs : FS) (in_path out_path fmt : String)
    (quality : Nat) : FS × Option ConvError :=
  let fs := safe_mkdir fs (dirName out_path)
  if ¬ env.imgDecodeOk in_path then (fs, some .conversionError)
  else if fmt = "jpg" then (fs.write out_path (env.encodeImage in_path "jpg" quality), none)
  else if fmt = "png" then (fs.write out_path (env.encodeImage in_path "png" quality), none)
  else if fmt = "webp" then (fs.write out_path (env.encodeImage in_path "webp" quality), none)
  else if fmt = "tiff" then (fs.write out_path (env.encodeImage in_path "tiff" quality), none)
  else if fmt = "bmp" then (fs.write out_path (env.encodeImage in_path "bmp" quality), none)
  else (fs, some .conversionError)

/-- `image_to_pdf`: mkdir the parent, open the image (failure →
`ConversionError`), flatten and save as a one-page PDF. -/
def image_to_pdf (env : Env) (fs : FS) (in_path out_path : String) :
    FS × Option ConvError :=
  let fs := safe_mkdir fs (dirName out_path)
  if ¬ env.imgDecodeOk in_path then (fs, some .conversionError)
  else (fs.write out_path (env.imageAsPdfBytes in_path), none)

/-- Loop body of `pdf_to_images_pymupdf` over page numbers: render the page
to `{prefix}-{i:03d}.png`; if the requested format is png, keep it;
otherwise re-encode to `{prefix}-{i:03d}.{fmt}` via `convert_image_file`
and try to unlink the intermediate, silently continuing when the unlink
fails.  Besides the filesystem, it returns the per-page output paths in
order, the intermediate paths actually unlinked, and the error if any —
observables recorded for specification purposes. -/
def rasterPages (env : Env) (pdf out_dir fmt : String) (dpi quality : Nat)
    (pref : String) : List Nat → FS → FS × List String × List String × Option ConvError
  | [], fs => (fs, [], [], none)
  | i :: rest, fs =>
    let tmp := out_dir ++ "/" ++ pref ++ "-" ++ fmt03 i ++ ".png"
    let fs := fs.write tmp (env.renderPage pdf dpi i)
    if fmt = "png" then
      let r := rasterPages env pdf out_dir fmt dpi quality pref rest fs
      (r.1, tmp :: r.2.1, r.2.2.1, r.2.2.2)
    else
      let out_file := out_dir ++ "/" ++ pref ++ "-" ++ fmt03 i ++ "." ++ fmt
      match convert_image_file env fs tmp out_file fmt quality with
      | (fs, some e) => (fs, [], [], some e)
      | (fs, none) =>
        if env.unlinkOk tmp then
          let fs := fs.unlink tmp
          let r := rasterPages env pdf out_dir fmt dpi quality pref rest fs
          (r.1, out_file :: r.2.1, tmp :: r.2.2.1, r.2.2.2)
        else
          let r := rasterPages env pdf out_dir fmt dpi quality pref rest fs
          (r.1, out_file :: r.2.1, r.2.2.1, r.2.2.2)

/-- `pdf_to_images_pymupdf`: raise `MissingDependency` without PyMuPDF,
mkdir the output directory, open the document (failure →
`ConversionError`), then process pages `1..N` in document order. -/
def pdf_to_images_pymupdf (env : Env) (fs : FS) (pdf_path out_dir fmt : String)
    (dpi quality : Nat) (pref : String) :
    FS × List String × List String × Option ConvError :=
  if ¬ env.hasPyMuPDF then (fs, [], [], some .missingDependency)
  else
    let fs := safe_mkdir fs out_dir
    if ¬ env.pdfOpenOk pdf_path then (fs, [], [], some .conversionError)
    else rasterPages env pdf_path out_dir fmt dpi quality pref
      ((List.range (env.npages pdf_path)).map (· + 1)) fs

/-- `office_to_pdf`: discover `soffice` or `libreoffice` (neither →
`MissingDependency`); mkdir; run the headless conversion (non-zero exit →
`ConversionError`); the external process drops a PDF named
`officeProducedName` into the output directory; then locate the result:
first `stem + ".pdf"`, then the glob candidates `stem + ".pdf"` /
`stem + ".PDF"`; none found → `ConversionError`. -/
def office_to_pdf (env : Env) (fs : FS) (in_path out_dir : String) :
    FS × Except ConvError String :=
  match (env.which "soffice").orElse (fun _ => env.which "libreoffice") with
  | none => (fs, .error .missingDependency)
  | some _ =>
    let fs := safe_mkdir fs out_dir
    if ¬ env.officeRunOk in_path then (fs, .error .conversionError)
    else
      let fs := fs.write (out_dir ++ "/" ++ env.officeProducedName in_path)
        (env.officePdfBytes in_path)
      let out_pdf := out_dir ++ "/" ++ pyStem in_path ++ ".pdf"
      if fs.existsF out_pdf then (fs, .ok out_pdf)
      else
        let candsUpper := out_dir ++ "/" ++ pyStem in_path ++ ".PDF"
        let cands := (if fs.existsF out_pdf then [out_pdf] else []) ++
          (if fs.existsF candsUpper then [candsUpper] else [])
        match cands with
        | c :: _ => (fs, .ok c)
        | [] => (fs, .error .conversionError)

/-- `merge_pdfs`: raise `MissingDependency` without pypdf; append every
input's pages in the given order; mkdir the parent and write the merged
document. -/
def merge_pdfs (env : Env) (fs : FS) (pdf_paths : List String) (out_pdf : String) :
    FS × Option ConvError :=
  if ¬ env.hasPyPDF then (fs, some .missingDependency)
  else
    let content := (pdf_paths.map (fun p => (fs.read p).getD [])).flatten
    let fs := safe_mkdir fs (dirName out_pdf)
    (fs.write out_pdf content, none)

/-! ### Dispatcher and the per-file body of `convert_all` -/

/-- Pure routing decision of `convert_all` (lines 400–461), in the exact
order of the source's conditionals: which adapter handles
`(fmt, ext)`, or `UnsupportedConversion`. -/
def dispatch (fmt ext : String) : Except ConvError Adapter :=
  if fmt = "txt" then
    if ext ≠ ".pdf" then .error .unsupportedConversion
    else .ok .pdfTextExtract
  else if fmt = "pdf" then
    if ext = ".pdf" then .ok .byteCopy
    else if ext ∈ IMAGE_EXTS then .ok .imageToPdfA
    else if ext ∈ OFFICE_EXTS then .ok .officeToPdfA
    else .error .unsupportedConversion
  else if ext = ".pdf" then
    if fmt ∈ RASTER_FORMATS then .ok .pdfToImagesA
    else .error .unsupportedConversion
  else if ext ∈ IMAGE_EXTS then .ok .convertImageA
  else if ext ∈ OFFICE_EXTS then .error .unsupportedConversion
  else .error .unsupportedConversion

/-- Modelled from the spec: the §4.1 routing table transcribed from the
spec's own words (by outputFormat, then by inputExtension), to be compared
with `dispatch`, which is translated from the source. -/
def routeSpecTable (fmt ext : String) : Except ConvError Adapter :=
  if fmt = "txt" then
    if ext = ".pdf" then .ok .pdfTextExtract else .error .unsupportedConversion
  else if fmt = "pdf" then
    if ext = ".pdf" then .ok .byteCopy
    else if ext ∈ IMAGE_EXTS then .ok .imageToPdfA
    else if ext ∈ OFFICE_EXTS then .ok .officeToPdfA
    else .error .unsupportedConversion
  else if fmt ∈ RASTER_FORMATS then
    if ext = ".pdf" then .ok .pdfToImagesA
    else if ext ∈ IMAGE_EXTS then .ok .convertImageA
    else .error .unsupportedConversion
  else .error .unsupportedConversion

/-- Result of one iteration of the `convert_all` loop: the filesystem, the
success flag (`ok_count` vs `fail_count`), the adapters invoked, and the
caught error, if any (a missing input file is a failure with no error
kind). -/
structure StepOut where
  fs : FS
  ok : Bool
  calls : List Adapter
  err : Option ConvError
deriving DecidableEq

/-- One iteration of the `convert_all` loop (lines 383–465): existence
check, extension and sanitized base name, destination directory (per-file
subfolder when enabled), `safe_mkdir`, then the routed conversion inside
`try`, with every raise caught and turned into a failure.  In the pdf→pdf
branch `shutil.copy2(in_path, out_pdf)` raises `SameFileError` (a caught
`Exception`, so a counted failure) when destination and source are the
same file, modelled as path equality; otherwise it copies the bytes. -/
def convertOne (env : Env) (fmt : String) (subfolder : Bool) (outBase : String)
    (dpi quality : Nat) (fs : FS) (f : String) : StepOut :=
  if ¬ fs.existsF f then { fs := fs, ok := false, calls := [], err := none }
  else
    let ext := fileExt f
    let base_name := sanitize_basename (pyStem f)
    let dest_dir := if subfolder then outBase ++ "/" ++ base_name else outBase
    let fs := safe_mkdir fs dest_dir
    if fmt = "txt" then
      if ext ≠ ".pdf" then
        { fs := fs, ok := false, calls := [], err := some .unsupportedConversion }
      else
        let out_txt := dest_dir ++ "/" ++ base_name ++ ".txt"
        match pdf_to_text_pymupdf env fs f out_txt with
        | (fs, none) => { fs := fs, ok := true, calls := [.pdfTextExtract], err := none }
        | (fs, some e) => { fs := fs, ok := false, calls := [.pdfTextExtract], err := some e }
    else if fmt = "pdf" then
      let out_pdf := dest_dir ++ "/" ++ base_name ++ ".pdf"
      if ext = ".pdf" then
        if out_pdf = f then
          { fs := fs, ok := false, calls := [.byteCopy], err := some .conversionError }
        else
          { fs := fs.write out_pdf ((fs.read f).getD []), ok := true,
            calls := [.byteCopy], err := none }
      else if ext ∈ IMAGE_EXTS then
        match image_to_pdf env fs f out_pdf with
        | (fs, none) => { fs := fs, ok := true, calls := [.imageToPdfA], err := none }
        | (fs, some e) => { fs := fs, ok := false, calls := [.imageToPdfA], err := some e }
      else if ext ∈ OFFICE_EXTS then
        match office_to_pdf env fs f dest_dir with
        | (fs, .error e) => { fs := fs, ok := false, calls := [.officeToPdfA], err := some e }
        | (fs, .ok produced) =>
          if produced ≠ out_pdf ∧ fs.existsF produced then
            let fs := if fs.existsF out_pdf then fs.unlink out_pdf else fs
            let doc := (fs.read produced).getD []
            let fs := (fs.unlink produced).write out_pdf doc
            { fs := fs, ok := true, calls := [.officeToPdfA], err := none }
          else { fs := fs, ok := true, calls := [.officeToPdfA], err := none }
      else { fs := fs, ok := false, calls := [], err := some .unsupportedConversion }
    else if ext = ".pdf" then
      if fmt ∈ RASTER_FORMATS then
        match pdf_to_images_pymupdf env fs f dest_dir fmt dpi quality base_name with
        | (fs, _, _, none) => { fs := fs, ok := true, calls := [.pdfToImagesA], err := none }
        | (fs, _, _, some e) => { fs := fs, ok := false, calls := [.pdfToImagesA], err := some e }
      else { fs := fs, ok := false, calls := [], err := some .unsupportedConversion }
    else if ext ∈ IMAGE_EXTS then
      let out_img := dest_dir ++ "/" ++ base_name ++ "." ++ fmt
      match convert_image_file env fs f out_img fmt quality with
      | (fs, none) => { fs := fs, ok := true, calls := [.convertImageA], err := none }
      | (fs, some e) => { fs := fs, ok := false, calls := [.convertImageA], err := some e }
    else if ext ∈ OFFICE_EXTS then
      { fs := fs, ok := false, calls := [], err := some .unsupportedConversion }
    else { fs := fs, ok := false, calls := [], err := some .unsupportedConversion }

/-- Aggregated outcome of `convert_all`: the final filesystem, the success
and failure counters of the summary dialog, the files processed in order,
and which adapters were invoked for which file. -/
structure RunTotals where
  fs : FS
  okCount : Nat
  failCount : Nat
  processed : List String
  callLog : List (String × Adapter)
deriving DecidableEq

/-- One `convert_all` loop iteration folded into the running totals:
convert the file on the current filesystem, bump the matching counter,
append the file to the processed log and its adapter invocations to the
call log. -/
def convertStep (env : Env) (fmt : String) (subfolder : Bool) (outBase : String)
    (dpi quality : Nat) (acc : RunTotals) (f : String) : RunTotals :=
  let s := convertOne env fmt subfolder outBase dpi quality acc.fs f
  { fs := s.fs,
    okCount := acc.okCount + (if s.ok then 1 else 0),
    failCount := acc.failCount + (if s.ok then 0 else 1),
    processed := acc.processed ++ [f],
    callLog := acc.callLog ++ s.calls.map (fun a => (f, a)) }

/-- `convert_all`: warn and do nothing on an empty queue; otherwise mkdir
the output base and run the per-file loop over the queue in order.  The
format is the combobox value, already lowercase (`fmt_var.get().lower().strip()`
normalizes a read-only enumeration). -/
def convertAll (env : Env) (fmt : String) (subfolder : Bool) (outBase : String)
    (dpi quality : Nat) (fs : FS) (files : List String) : RunTotals :=
  if files.isEmpty then
    { fs := fs, okCount := 0, failCount := 0, processed := [], callLog := [] }
  else
    let fs := safe_mkdir fs outBase
    files.foldl (convertStep env fmt subfolder outBase dpi quality)
      { fs := fs, okCount := 0, failCount := 0, processed := [], callLog := [] }

/-! ### The file queue (`self.files`, mirrored by the listbox) -/

/-- `App._add_paths`: append each path that is non-empty and not already
queued. -/
def addPaths (files : List String) (paths : List String) : List String :=
  paths.foldl (fun fl p => if p ≠ "" ∧ p ∉ fl then fl ++ [p] else fl) files

/-- `App.remove_selected`: for each selected index, in reverse order, look
up the entry shown at that index and remove that path from `self.files`
(`list.remove` deletes the first occurrence; its `ValueError` on an absent
path is swallowed, which `List.erase`'s no-op matches). -/
def removeSelected (files : List String) (sel : List Nat) : List String :=
  sel.reverse.foldl (fun fl i =>
    match fl.get? i with
    | some path => fl.erase path
    | none => fl) files

/-- `App.clear_files`. -/
def clearFiles (_files : List String) : List String := []

/-- Keep the entries whose (0-based) index, offset by `n`, is not
selected. -/
def keepAux (n : Nat) : List String → List Nat → List String
  | [], _ => []
  | x :: t, sel => if n ∈ sel then keepAux (n + 1) t sel else x :: keepAux (n + 1) t sel

/-- Modelled from the spec: "removing deletes only the selected entries" —
the queue entries whose index is not selected, in their original order.
`remove_selected` is compared against this. -/
def removeSelectedSpec (q : List String) (sel : List Nat) : List String :=
  keepAux 0 q sel

/-- A queue-mutating UI action. -/
inductive QOp
  | add (paths : List String)
  | removeSel (sel : List Nat)
  | clearQ

/-- Apply one queue action. -/
def applyQOp (files : List String) : QOp → List String
  | .add paths => addPaths files paths
  | .removeSel sel => removeSelected files sel
  | .clearQ => clearFiles files

/-- Run a sequence of queue actions starting from the empty queue
(`self.files = []` in `App.__init__`). -/
def runQOps (ops : List QOp) : List String := ops.foldl applyQOp []

/-! ### Merge (`App.merge_pdfs_now`) -/

/-- Outcome of the merge button: the "too few PDFs" warning, success with
the output path, or the error dialog. -/
inductive MergeReport
  | warnedTooFew
  | mergedOk (out : String)
  | mergeFailed (e : ConvError)
deriving DecidableEq

/-- `App.merge_pdfs_now`: collect the queue entries that are existing
`.pdf` files in queue order; warn when fewer than two; otherwise mkdir the
output directory, normalize the output name (append `.pdf` unless the name
already ends with it case-insensitively, then sanitize the stem) and call
`merge_pdfs`, reporting any caught error. -/
def merge_pdfs_now (env : Env) (fs : FS) (files : List String)
    (outDir mergeName : String) : FS × MergeReport :=
  let pdfs := files.filter (fun p => fileExt p == ".pdf" && fs.existsF p)
  if pdfs.length < 2 then (fs, .warnedTooFew)
  else
    let fs := safe_mkdir fs outDir
    let name := String.mk (stripChars mergeName.data)
    let name := if ¬ (pyEndsWith (pyLower name) ".pdf") then name ++ ".pdf" else name
    let out_pdf := outDir ++ "/" ++ (sanitize_basename (pyStem name) ++ ".pdf")
    match merge_pdfs env fs pdfs out_pdf with
    | (fs, none) => (fs, .mergedOk out_pdf)
    | (fs, some e) => (fs, .mergeFailed e)

/-! ### Pixel-level model of the PIL calls in `convert_image_file`

The filesystem-level `convert_image_file` above treats the encoded bytes
as an oracle; the claims about transparency flattening are about the PIL
image pipeline itself (lines 58–67), modelled here at pixel level.  A
`PImage` is the decoded image: its PIL mode string, size, per-position
RGBA colour, and whether `"transparency" in im.info`. -/

/-- One RGBA pixel. -/
structure Pixel where
  r : Nat
  g : Nat
  b : Nat
  a : Nat
deriving DecidableEq

/-- A decoded PIL image. -/
structure PImage where
  mode : String
  w : Nat
  h : Nat
  px : Nat → Nat → Pixel
  infoTransparency : Bool

/-- `im.convert(mode)` for the two modes the source uses: `"RGB"` forces
every pixel opaque, `"RGBA"` keeps the resolved colours (for palette
images the palette lookup is already resolved in `px`). -/
def pilConvert (m : String) (im : PImage) : PImage :=
  if m = "RGB" then
    { im with mode := "RGB", px := fun x y => { im.px x y with a := 255 } }
  else if m = "RGBA" then { im with mode := "RGBA" }
  else im

/-- `Image.new(mode, size, color)`. -/
def pilNew (mode : String) (w h : Nat) (c : Pixel) : PImage :=
  { mode := mode, w := w, h := h, px := fun _ _ => c, infoTransparency := false }

/-- One channel of `paste` with a mask: source over background weighted by
the mask value (0 → background, 255 → source). -/
def blendChan (s b m : Nat) : Nat := (s * m + b * (255 - m)) / 255

/-- `bg.paste(im, mask=im.split()[-1])`: composite `fg` over `bg` using
`fg`'s last band (its alpha channel) as the mask; the result keeps `bg`'s
mode and is opaque. -/
def pilPasteAlphaMask (bg fg : PImage) : PImage :=
  { bg with px := fun x y =>
      let s := fg.px x y
      let d := bg.px x y
      { r := blendChan s.r d.r s.a, g := blendChan s.g d.g s.a,
        b := blendChan s.b d.b s.a, a := 255 } }

/-- The image pipeline of `convert_image_file` for `fmt = "jpg"`
(lines 59–67): when the source has an alpha channel (`RGBA`/`LA`) or a
transparent palette entry, convert to RGBA, make a white RGB background of
the same size, paste the image onto it through its alpha mask and encode
the background; otherwise just convert to RGB. -/
def convert_image_file_pixels (im : PImage) : PImage :=
  if im.mode = "RGBA" ∨ im.mode = "LA" ∨ (im.mode = "P" ∧ im.infoTransparency) then
    let im2 := pilConvert "RGBA" im
    let bg := pilNew "RGB" im2.w im2.h { r := 255, g := 255, b := 255, a := 255 }
    pilPasteAlphaMask bg im2
  else pilConvert "RGB" im

/-! ### Concrete fixtures used to instantiate the theorems -/

/-- An environment in which every dependency is available and every
external call succeeds; the office engine produces `Doc.PDF` (upper-case
extension, as some engine versions do), and the image encoder re-encodes
everything to the bytes `[9, 9]`. -/
def okEnv : Env where
  hasPyMuPDF := true
  hasPyPDF := true
  which := fun _ => some "/usr/bin/soffice"
  officeRunOk := fun _ => true
  officeProducedName := fun _ => "Doc.PDF"
  officePdfBytes := fun _ => [7, 7]
  pdfTextBytes := fun _ => [1]
  imageAsPdfBytes := fun _ => [2]
  imgDecodeOk := fun _ => true
  encodeImage := fun _ _ _ => [9, 9]
  pdfOpenOk := fun _ => true
  renderPage := fun _ _ i => [i]
  npages := fun _ => 3
  unlinkOk := fun _ => true

/-- `okEnv` with the two optional libraries missing. -/
def noLibEnv : Env :=
  { okEnv with hasPyMuPDF := false, hasPyPDF := false, which := fun _ => none }

/-- `okEnv` with an office engine that drops its output under an
unexpected name, so the post-run lookup cannot find it. -/
def lostOutputEnv : Env := { okEnv with officeProducedName := fun _ => "result.bin" }

/-- A small input filesystem: a 3-page PDF, two images, an office document
and a second 2-page PDF. -/
def fsA : FS where
  files := [("/in/a.pdf", [1, 2, 3]), ("/in/photo.jpg", [5]), ("/in/photo.png", [5, 6]),
            ("/in/Doc.docx", [6]), ("/in/b.pdf", [4, 5])]
  dirs := []

/-- A transparent 2×1 RGBA test image: one fully transparent black pixel
and one opaque red pixel. -/
def imgA : PImage where
  mode := "RGBA"
  w := 2
  h := 1
  px := fun x _ => if x = 0 then { r := 0, g := 0, b := 0, a := 0 }
                   else { r := 200, g := 10, b := 10, a := 255 }
  infoTransparency := false

/-! ## Lemmas

### Filesystem lemmas -/

theorem lookupB_removeKey_self (l : List (String × Bytes)) (p : String) :
    lookupB (removeKey l p) p = none := by
  induction l with
  | nil => rfl
  | cons a t ih =>
    obtain ⟨a1, a2⟩ := a
    by_cases h : a1 = p
    · simpa [removeKey, h] using ih
    · simpa [removeKey, lookupB, h] using ih

theorem lookupB_removeKey_other (l : List (String × Bytes)) (p q : String) (hqp : q ≠ p) :
    lookupB (removeKey l p) q = lookupB l q := by
  induction l with
  | nil => rfl
  | cons a t ih =>
    obtain ⟨a1, a2⟩ := a
    simp only [removeKey, lookupB]
    by_cases h : a1 = p
    · rw [if_pos h, if_neg (show ¬ a1 = q from fun hc => hqp (hc ▸ h))]
      exact ih
    · rw [if_neg h]
      simp only [lookupB]
      by_cases h2 : a1 = q
      · rw [if_pos h2, if_pos h2]
      · rw [if_neg h2, if_neg h2]
        exact ih

theorem lookupB_append (l₁ l₂ : List (String × Bytes)) (p : String)
    (h : lookupB l₁ p = none) : lookupB (l₁ ++ l₂) p = lookupB l₂ p := by
  induction l₁ with
  | nil => rfl
  | cons a t ih =>
    obtain ⟨a1, a2⟩ := a
    by_cases hp : a1 = p
    · simp [lookupB, hp] at h
    · simp only [lookupB, hp, if_false, List.cons_append] at h ⊢
      exact ih h

theorem FS.read_write_self (fs : FS) (p : String) (b : Bytes) :
    (fs.write p b).read p = some b := by
  unfold FS.write FS.read
  rw [lookupB_append _ _ _ (lookupB_removeKey_self fs.files p)]
  simp [lookupB]

theorem FS.read_write_ne (fs : FS) (p q : String) (b : Bytes) (h : q ≠ p) :
    (fs.write p b).read q = fs.read q := by
  unfold FS.write FS.read
  show lookupB (removeKey fs.files p ++ [(p, b)]) q = lookupB fs.files q
  have h1 : lookupB ([(p, b)] : List (String × Bytes)) q = none := by
    simp only [lookupB]
    rw [if_neg (show ¬ p = q from fun hc => h hc.symm)]
  induction fs.files with
  | nil =>
    simpa [removeKey] using h1
  | cons a t ih =>
    obtain ⟨a1, a2⟩ := a
    simp only [removeKey]
    by_cases hp : a1 = p
    · rw [if_pos hp]
      rw [ih]
      simp only [lookupB]
      rw [if_neg (show ¬ a1 = q from fun hc => h (hc ▸ hp))]
    · rw [if_neg hp, List.cons_append]
      simp only [lookupB]
      by_cases h2 : a1 = q
      · rw [if_pos h2, if_pos h2]
      · rw [if_neg h2, if_neg h2]
        exact ih

theorem FS.read_unlink_ne (fs : FS) (p q : String) (h : q ≠ p) :
    (fs.unlink p).read q = fs.read q := by
  unfold FS.unlink FS.read
  exact lookupB_removeKey_other fs.files p q h

theorem FS.read_unlink_self (fs : FS) (p : String) : (fs.unlink p).read p = none := by
  unfold FS.unlink FS.read
  exact lookupB_removeKey_self fs.files p

theorem read_safe_mkdir (fs : FS) (d q : String) : (safe_mkdir fs d).read q = fs.read q := by
  unfold safe_mkdir
  split <;> rfl

theorem files_safe_mkdir (fs : FS) (d : String) : (safe_mkdir fs d).files = fs.files := by
  unfold safe_mkdir
  split <;> rfl

theorem existsF_safe_mkdir (fs : FS) (d q : String) :
    (safe_mkdir fs d).existsF q = fs.existsF q := by
  unfold FS.existsF
  rw [read_safe_mkdir]

theorem dirs_write (fs : FS) (p : String) (b : Bytes) : (fs.write p b).dirs = fs.dirs := rfl

theorem dirs_unlink (fs : FS) (p : String) : (fs.unlink p).dirs = fs.dirs := rfl

theorem mem_dirs_safe_mkdir_self (fs : FS) (d : String) : d ∈ (safe_mkdir fs d).dirs := by
  unfold safe_mkdir
  split
  · assumption
  · simp

theorem mem_dirs_safe_mkdir (fs : FS) (d x : String) (h : x ∈ fs.dirs) :
    x ∈ (safe_mkdir fs d).dirs := by
  unfold safe_mkdir
  split
  · exact h
  · simp [h]

theorem FS.existsF_write_self (fs : FS) (p : String) (b : Bytes) :
    (fs.write p b).existsF p = true := by
  unfold FS.existsF
  rw [FS.read_write_self]
  rfl

theorem FS.existsF_write_ne (fs : FS) (p q : String) (b : Bytes) (h : q ≠ p) :
    (fs.write p b).existsF q = fs.existsF q := by
  unfold FS.existsF
  rw [FS.read_write_ne _ _ _ _ h]

theorem FS.existsF_unlink_ne (fs : FS) (p q : String) (h : q ≠ p) :
    (fs.unlink p).existsF q = fs.existsF q := by
  unfold FS.existsF
  rw [FS.read_unlink_ne _ _ _ h]

theorem FS.read_eq_some_of_existsF (fs : FS) (p : String) (h : fs.existsF p = true) :
    ∃ b, fs.read p = some b := by
  unfold FS.existsF at h
  exact Option.isSome_iff_exists.mp h

/-! ### List and path lemmas -/

theorem takeWhile_append_cons {α : Type} (p : α → Bool) (a : List α) (c : α) (b : List α)
    (ha : ∀ x ∈ a, p x = true) (hc : p c = false) :
    (a ++ c :: b).takeWhile p = a := by
  induction a with
  | nil => simp [List.takeWhile_cons, hc]
  | cons x t ih =>
    have hx := ha x (by simp)
    simp only [List.cons_append, List.takeWhile_cons, hx, if_true]
    rw [ih (fun y hy => ha y (by simp [hy]))]

theorem takeWhile_eq_self {α : Type} (p : α → Bool) (l : List α)
    (h : ∀ x ∈ l, p x = true) : l.takeWhile p = l := by
  induction l with
  | nil => rfl
  | cons x t ih =>
    simp only [List.takeWhile_cons, h x (by simp), if_true]
    rw [ih (fun y hy => h y (by simp [hy]))]

theorem pathName_mk_concat (pre rest : List Char) (h : ∀ c ∈ rest, c ≠ '/') :
    pathName (String.mk (pre ++ '/' :: rest)) = String.mk rest := by
  unfold pathName
  have hrev : (pre ++ '/' :: rest).reverse = rest.reverse ++ '/' :: pre.reverse := by
    simp
  show String.mk (((pre ++ '/' :: rest).reverse.takeWhile (fun c => c != '/')).reverse) =
    String.mk rest
  rw [hrev, takeWhile_append_cons _ _ _ _
    (fun x hx => by simpa using h x (List.mem_reverse.mp hx)) (by decide)]
  rw [List.reverse_reverse]

theorem pathName_noSlash (s : String) (h : ∀ c ∈ s.data, c ≠ '/') : pathName s = s := by
  unfold pathName
  show String.mk ((s.data.reverse.takeWhile (fun c => c != '/')).reverse) = s
  rw [takeWhile_eq_self _ _ (fun x hx => by simpa using h x (List.mem_reverse.mp hx))]
  rw [List.reverse_reverse]

theorem pySuffixChars_append (b s' : List Char) (hd : ∀ c ∈ s', c ≠ '.') (h0 : s' ≠ []) :
    pySuffixChars (b ++ '.' :: s') = if b = [] then [] else '.' :: s' := by
  unfold pySuffixChars
  have hrev : (b ++ '.' :: s').reverse = s'.reverse ++ '.' :: b.reverse := by
    simp
  rw [hrev, takeWhile_append_cons _ _ _ _
    (fun x hx => by simpa using hd x (List.mem_reverse.mp hx)) (by decide)]
  simp only [List.length_reverse, List.length_append, List.length_cons,
    List.reverse_reverse]
  by_cases hb : b = []
  · subst hb
    rw [if_neg, if_pos rfl]
    simp
  · rw [if_pos, if_neg hb]
    refine ⟨List.length_pos.mpr h0, ?_⟩
    have : 0 < b.length := List.length_pos.mpr hb
    omega

theorem fileExt_slash_concat (pre name : String) (h : ∀ c ∈ name.data, c ≠ '/') :
    fileExt (pre ++ "/" ++ name) = fileExt name := by
  unfold fileExt pySuffix
  have he : (pre ++ "/" ++ name) = String.mk (pre.data ++ '/' :: name.data) := by
    apply String.ext
    simp [String.data_append]
  rw [he, pathName_mk_concat pre.data name.data h, pathName_noSlash name h]

theorem fileExt_mk_name (pre b s' : List Char)
    (hb : ∀ c ∈ b, c ≠ '/') (hs : ∀ c ∈ s', c ≠ '.' ∧ c ≠ '/') (h0 : s' ≠ []) :
    fileExt (String.mk (pre ++ '/' :: (b ++ '.' :: s'))) =
      if b = [] then "" else pyLower (String.mk ('.' :: s')) := by
  unfold fileExt pySuffix
  have hname : ∀ c ∈ b ++ '.' :: s', c ≠ '/' := by
    intro c hc
    rcases List.mem_append.mp hc with h1 | h1
    · exact hb c h1
    · rcases List.mem_cons.mp h1 with rfl | h2
      · decide
      · exact (hs c h2).2
  rw [pathName_mk_concat pre _ hname]
  show pyLower (String.mk (pySuffixChars (b ++ '.' :: s'))) = _
  rw [pySuffixChars_append b s' (fun c hc => (hs c hc).1) h0]
  by_cases hbe : b = []
  · rw [if_pos hbe, if_pos hbe]
    rfl
  · rw [if_neg hbe, if_neg hbe]

/-! ### Decimal formatting lemmas -/

/-- Value of a digit string (used only to prove `fmt03` injective). -/
def decVal (l : List Char) : Nat := l.foldl (fun a c => a * 10 + (c.toNat - 48)) 0

theorem decVal_append_digit (l : List Char) (c : Char) :
    decVal (l ++ [c]) = (decVal l) * 10 + (c.toNat - 48) := by
  unfold decVal
  rw [List.foldl_append]
  rfl

theorem digitChar_val : ∀ n < 10, (Nat.digitChar n).toNat - 48 = n := by decide

theorem decVal_natDigsF (fuel : Nat) : ∀ n < fuel, decVal (natDigsF fuel n) = n := by
  induction fuel with
  | zero => intro n h; omega
  | succ fuel ih =>
    intro n h
    by_cases h10 : n < 10
    · rw [natDigsF, if_pos h10]
      show 0 * 10 + ((Nat.digitChar n).toNat - 48) = n
      rw [digitChar_val n h10]
      omega
    · rw [natDigsF, if_neg h10, decVal_append_digit]
      have hdiv : n / 10 < n := Nat.div_lt_self (by omega) (by omega)
      rw [ih (n / 10) (by omega)]
      rw [digitChar_val (n % 10) (Nat.mod_lt _ (by omega))]
      have := Nat.div_add_mod n 10
      omega

theorem decVal_natDigs (n : Nat) : decVal (natDigs n) = n :=
  decVal_natDigsF (n + 1) n (by omega)

theorem decVal_cons_zero (l : List Char) : decVal ('0' :: l) = decVal l := rfl

theorem decVal_fmt03 (n : Nat) : decVal (fmt03 n).data = n := by
  unfold fmt03
  show decVal ((if n < 10 then ['0', '0'] else if n < 100 then ['0'] else []) ++ natDigs n) = n
  split
  · rw [show (['0', '0'] ++ natDigs n : List Char) = '0' :: '0' :: natDigs n from rfl,
      decVal_cons_zero, decVal_cons_zero, decVal_natDigs]
  · split
    · rw [show (['0'] ++ natDigs n : List Char) = '0' :: natDigs n from rfl,
        decVal_cons_zero, decVal_natDigs]
    · rw [List.nil_append, decVal_natDigs]

theorem fmt03_inj (a b : Nat) (h : fmt03 a = fmt03 b) : a = b := by
  have ha := decVal_fmt03 a
  rw [h, decVal_fmt03 b] at ha
  exact ha.symm

/-! ### Dispatcher lemmas -/

theorem dispatch_eq_routeSpecTable :
    ∀ fmt ∈ OUTPUT_FORMATS, ∀ ext, dispatch fmt ext = routeSpecTable fmt ext := by
  intro fmt hfmt ext
  simp only [OUTPUT_FORMATS, List.mem_cons, List.not_mem_nil, or_false] at hfmt
  rcases hfmt with rfl | rfl | rfl | rfl | rfl | rfl | rfl <;>
    simp [dispatch, routeSpecTable, RASTER_FORMATS]

set_option maxHeartbeats 2000000 in
theorem convertOne_calls_eq (env : Env) (fmt : String) (sub : Bool) (outBase : String)
    (dpi quality : Nat) (fs : FS) (f : String) (h : fs.existsF f = true) :
    (convertOne env fmt sub outBase dpi quality fs f).calls =
      (match dispatch fmt (fileExt f) with
       | .ok a => [a]
       | .error _ => []) := by
  unfold convertOne dispatch
  rw [if_neg (by simp [h])]
  dsimp only
  split_ifs <;> first
    | rfl
    | (split <;> first | rfl | (split_ifs <;> rfl))

/-! ## Claims -/

/-- C1: for every queued input file that exists and every selected output
format in `OUTPUT_FORMATS`, the per-file routing of `convert_all` selects
exactly the adapter given by the §4.1 routing table keyed on
`(outputFormat, inputExtension)` and no other: `dispatch` agrees with the
spec's table on every extension, and the adapter invocations of one
`convert_all` iteration are exactly `[a]` when the table selects `a` and
`[]` (an `UnsupportedConversion` failure) when it selects none. -/
theorem claim_C1_dispatch_routing :
    (∀ fmt ∈ OUTPUT_FORMATS, ∀ ext, dispatch fmt ext = routeSpecTable fmt ext) ∧
    (∀ (env : Env) (fmt : String) (sub : Bool) (outBase : String) (dpi quality : Nat)
      (fs : FS) (f : String), fs.existsF f = true →
      (convertOne env fmt sub outBase dpi quality fs f).calls =
        (match dispatch fmt (fileExt f) with
         | .ok a => [a]
         | .error _ => [])) :=
  ⟨dispatch_eq_routeSpecTable,
   fun env fmt sub outBase dpi quality fs f h =>
     convertOne_calls_eq env fmt sub outBase dpi quality fs f h⟩

/-- Witness for C1 at a concrete format, extension and filesystem. -/
theorem claim_C1_dispatch_routing_witness :
    (("jpg" ∈ OUTPUT_FORMATS) ∧ dispatch "jpg" ".docx" = routeSpecTable "jpg" ".docx") ∧
    (fsA.existsF "/in/photo.jpg" = true ∧
      (convertOne okEnv "jpg" false "/out" 200 90 fsA "/in/photo.jpg").calls =
        (match dispatch "jpg" (fileExt "/in/photo.jpg") with
         | .ok a => [a]
         | .error _ => [])) :=
  ⟨⟨by decide, claim_C1_dispatch_routing.1 "jpg" (by decide) ".docx"⟩,
   ⟨by decide, claim_C1_dispatch_routing.2 okEnv "jpg" false "/out" 200 90 fsA
      "/in/photo.jpg" (by decide)⟩⟩

/-- C2 counterexample: converting `/in/a.pdf` to pdf with output directory
`/in` and the subfolder flag off makes `out_pdf` equal the source path, so
`shutil.copy2` raises `SameFileError` and the job is a counted failure —
refuting "converting a .pdf input with output format pdf produces a
byte-identical copy" as a universal statement. -/
theorem claim_C2_counterexample :
    (convertOne okEnv "pdf" false "/in" 200 90 fsA "/in/a.pdf").ok = false ∧
    (convertOne okEnv "pdf" false "/in" 200 90 fsA "/in/a.pdf").err =
      some ConvError.conversionError := by
  decide

/-- C2 (amended): for an existing input whose extension is `.pdf` converted
with output format `pdf`, whenever the canonical output path
`DEST/BASE.pdf` differs from the source path, the job succeeds, the output
file's contents equal the input's contents byte for byte, and the input
file is unchanged; when the canonical output path equals the source path
(output directory = the source's own directory with the subfolder flag
off), `shutil.copy2` raises `SameFileError`, the job is a counted failure,
and the input file is unchanged. -/
theorem claim_C2_pdf_byte_copy (env : Env) (sub : Bool) (outBase : String)
    (dpi quality : Nat) (fs : FS) (f : String)
    (hex : fs.existsF f = true) (hpdf : fileExt f = ".pdf") :
    ((if sub then outBase ++ "/" ++ sanitize_basename (pyStem f) else outBase) ++ "/" ++
        sanitize_basename (pyStem f) ++ ".pdf" ≠ f →
      (convertOne env "pdf" sub outBase dpi quality fs f).ok = true ∧
      (convertOne env "pdf" sub outBase dpi quality fs f).fs.read
          ((if sub then outBase ++ "/" ++ sanitize_basename (pyStem f) else outBase) ++ "/" ++
            sanitize_basename (pyStem f) ++ ".pdf") = fs.read f ∧
      (convertOne env "pdf" sub outBase dpi quality fs f).fs.read f = fs.read f) ∧
    ((if sub then outBase ++ "/" ++ sanitize_basename (pyStem f) else outBase) ++ "/" ++
        sanitize_basename (pyStem f) ++ ".pdf" = f →
      (convertOne env "pdf" sub outBase dpi quality fs f).ok = false ∧
      (convertOne env "pdf" sub outBase dpi quality fs f).err = some .conversionError ∧
      (convertOne env "pdf" sub outBase dpi quality fs f).fs.read f = fs.read f) := by
  obtain ⟨b, hb⟩ := FS.read_eq_some_of_existsF fs f hex
  constructor
  · intro hne
    have hco : convertOne env "pdf" sub outBase dpi quality fs f =
        { fs := (safe_mkdir fs
              (if sub then outBase ++ "/" ++ sanitize_basename (pyStem f) else outBase)).write
            ((if sub then outBase ++ "/" ++ sanitize_basename (pyStem f) else outBase) ++ "/" ++
              sanitize_basename (pyStem f) ++ ".pdf")
            (((safe_mkdir fs
                (if sub then outBase ++ "/" ++ sanitize_basename (pyStem f)
                  else outBase)).read f).getD []),
          ok := true, calls := [Adapter.byteCopy], err := none } := by
      unfold convertOne
      rw [if_neg (by simp [hex])]
      dsimp only
      rw [if_neg (by decide : ¬ ("pdf" : String) = "txt"), if_pos rfl, if_pos hpdf,
        if_neg hne]
    rw [hco]
    refine ⟨rfl, ?_, ?_⟩
    · rw [FS.read_write_self, read_safe_mkdir, hb]
      rfl
    · rw [FS.read_write_ne _ _ _ _ (fun hc => hne hc.symm), read_safe_mkdir]
  · intro heq
    have hco : convertOne env "pdf" sub outBase dpi quality fs f =
        { fs := safe_mkdir fs
            (if sub then outBase ++ "/" ++ sanitize_basename (pyStem f) else outBase),
          ok := false, calls := [Adapter.byteCopy], err := some ConvError.conversionError } := by
      unfold convertOne
      rw [if_neg (by simp [hex])]
      dsimp only
      rw [if_neg (by decide : ¬ ("pdf" : String) = "txt"), if_pos rfl, if_pos hpdf,
        if_pos heq]
    rw [hco]
    exact ⟨rfl, rfl, read_safe_mkdir fs _ f⟩

/-- Witness for the amended C2: the copy branch on `/in/a.pdf` into the
per-file subfolder of `/out`, and the `SameFileError` branch on the same
source with output directory `/in` and the subfolder flag off. -/
theorem claim_C2_pdf_byte_copy_witness :
    (fsA.existsF "/in/a.pdf" = true ∧ fileExt "/in/a.pdf" = ".pdf" ∧
      (if true then "/out" ++ "/" ++ sanitize_basename (pyStem "/in/a.pdf") else "/out") ++ "/" ++
        sanitize_basename (pyStem "/in/a.pdf") ++ ".pdf" ≠ "/in/a.pdf" ∧
      (if false then "/in" ++ "/" ++ sanitize_basename (pyStem "/in/a.pdf") else "/in") ++ "/" ++
        sanitize_basename (pyStem "/in/a.pdf") ++ ".pdf" = "/in/a.pdf") ∧
    ((convertOne okEnv "pdf" true "/out" 200 90 fsA "/in/a.pdf").ok = true ∧
      (convertOne okEnv "pdf" true "/out" 200 90 fsA "/in/a.pdf").fs.read
          ((if true then "/out" ++ "/" ++ sanitize_basename (pyStem "/in/a.pdf") else "/out") ++ "/" ++
            sanitize_basename (pyStem "/in/a.pdf") ++ ".pdf") = fsA.read "/in/a.pdf" ∧
      (convertOne okEnv "pdf" true "/out" 200 90 fsA "/in/a.pdf").fs.read "/in/a.pdf" =
        fsA.read "/in/a.pdf") ∧
    ((convertOne okEnv "pdf" false "/in" 200 90 fsA "/in/a.pdf").ok = false ∧
      (convertOne okEnv "pdf" false "/in" 200 90 fsA "/in/a.pdf").err =
        some ConvError.conversionError ∧
      (convertOne okEnv "pdf" false "/in" 200 90 fsA "/in/a.pdf").fs.read "/in/a.pdf" =
        fsA.read "/in/a.pdf") :=
  ⟨⟨by decide, by decide, by decide, by decide⟩,
   (claim_C2_pdf_byte_copy okEnv true "/out" 200 90 fsA "/in/a.pdf"
      (by decide) (by decide)).1 (by decide),
   (claim_C2_pdf_byte_copy okEnv false "/in" 200 90 fsA "/in/a.pdf"
      (by decide) (by decide)).2 (by decide)⟩

/-- C3: requesting `txt` output for an existing input that is not a PDF
fails with `UnsupportedConversion`, counts as a failure, invokes no
adapter, and creates no output file (the file table is untouched). -/
theorem claim_C3_txt_nonpdf_unsupported (env : Env) (sub : Bool) (outBase : String)
    (dpi quality : Nat) (fs : FS) (f : String)
    (hex : fs.existsF f = true) (hnp : fileExt f ≠ ".pdf") :
    (convertOne env "txt" sub outBase dpi quality fs f).ok = false ∧
    (convertOne env "txt" sub outBase dpi quality fs f).err =
      some ConvError.unsupportedConversion ∧
    (convertOne env "txt" sub outBase dpi quality fs f).calls = [] ∧
    (convertOne env "txt" sub outBase dpi quality fs f).fs.files = fs.files := by
  unfold convertOne
  rw [if_neg (by simp [hex])]
  dsimp only
  rw [if_pos rfl, if_pos hnp]
  exact ⟨rfl, rfl, rfl, files_safe_mkdir fs _⟩

/-- Witness for C3 on the concrete image `/in/photo.png`. -/
theorem claim_C3_txt_nonpdf_unsupported_witness :
    (fsA.existsF "/in/photo.png" = true ∧ fileExt "/in/photo.png" ≠ ".pdf") ∧
    ((convertOne okEnv "txt" true "/out" 200 90 fsA "/in/photo.png").ok = false ∧
      (convertOne okEnv "txt" true "/out" 200 90 fsA "/in/photo.png").err =
        some ConvError.unsupportedConversion ∧
      (convertOne okEnv "txt" true "/out" 200 90 fsA "/in/photo.png").calls = [] ∧
      (convertOne okEnv "txt" true "/out" 200 90 fsA "/in/photo.png").fs.files = fsA.files) :=
  ⟨⟨by decide, by decide⟩,
   claim_C3_txt_nonpdf_unsupported okEnv true "/out" 200 90 fsA "/in/photo.png"
     (by decide) (by decide)⟩

/-- C5: converting a decodable image that has an alpha channel (RGBA/LA)
or a transparent palette entry to jpg yields an opaque RGB image of
exactly the source's dimensions, with fully transparent positions
flattened to white. -/
theorem claim_C5_jpg_transparency_flatten (im : PImage)
    (h : im.mode = "RGBA" ∨ im.mode = "LA" ∨ (im.mode = "P" ∧ im.infoTransparency = true)) :
    (convert_image_file_pixels im).mode = "RGB" ∧
    (convert_image_file_pixels im).w = im.w ∧
    (convert_image_file_pixels im).h = im.h ∧
    (∀ x y, ((convert_image_file_pixels im).px x y).a = 255) ∧
    (∀ x y, (im.px x y).a = 0 →
      (convert_image_file_pixels im).px x y = { r := 255, g := 255, b := 255, a := 255 }) := by
  unfold convert_image_file_pixels
  rw [if_pos h]
  unfold pilConvert pilNew pilPasteAlphaMask
  rw [if_neg (by decide : ¬ ("RGBA" : String) = "RGB"), if_pos rfl]
  refine ⟨rfl, rfl, rfl, fun x y => rfl, fun x y ha => ?_⟩
  show ({ r := blendChan (im.px x y).r 255 (im.px x y).a,
          g := blendChan (im.px x y).g 255 (im.px x y).a,
          b := blendChan (im.px x y).b 255 (im.px x y).a, a := 255 } : Pixel) = _
  rw [ha]
  unfold blendChan
  norm_num

/-- Witness for C5 on a concrete RGBA image. -/
theorem claim_C5_jpg_transparency_flatten_witness :
    (imgA.mode = "RGBA" ∨ imgA.mode = "LA" ∨ (imgA.mode = "P" ∧ imgA.infoTransparency = true)) ∧
    ((convert_image_file_pixels imgA).mode = "RGB" ∧
      (convert_image_file_pixels imgA).w = imgA.w ∧
      (convert_image_file_pixels imgA).h = imgA.h ∧
      (∀ x y, ((convert_image_file_pixels imgA).px x y).a = 255) ∧
      (∀ x y, (imgA.px x y).a = 0 →
        (convert_image_file_pixels imgA).px x y = { r := 255, g := 255, b := 255, a := 255 })) :=
  ⟨Or.inl rfl, claim_C5_jpg_transparency_flatten imgA (Or.inl rfl)⟩

/-! ### Fold lemmas for `convert_all` -/

theorem convertAll_fold_processed (env : Env) (fmt : String) (sub : Bool) (outBase : String)
    (dpi quality : Nat) :
    ∀ (files : List String) (acc : RunTotals),
      (files.foldl (convertStep env fmt sub outBase dpi quality) acc).processed =
        acc.processed ++ files := by
  intro files
  induction files with
  | nil => intro acc; simp
  | cons f t ih =>
    intro acc
    rw [List.foldl_cons, ih]
    show (convertStep env fmt sub outBase dpi quality acc f).processed ++ t = _
    unfold convertStep
    simp

theorem convertAll_fold_counts (env : Env) (fmt : String) (sub : Bool) (outBase : String)
    (dpi quality : Nat) :
    ∀ (files : List String) (acc : RunTotals),
      (files.foldl (convertStep env fmt sub outBase dpi quality) acc).okCount +
        (files.foldl (convertStep env fmt sub outBase dpi quality) acc).failCount =
        acc.okCount + acc.failCount + files.length := by
  intro files
  induction files with
  | nil => intro acc; simp
  | cons f t ih =>
    intro acc
    rw [List.foldl_cons, ih]
    show (convertStep env fmt sub outBase dpi quality acc f).okCount +
        (convertStep env fmt sub outBase dpi quality acc f).failCount + t.length = _
    unfold convertStep
    dsimp only
    by_cases hok : (convertOne env fmt sub outBase dpi quality acc.fs f).ok = true
    · simp only [hok, if_true, List.length_cons]
      omega
    · simp only [if_neg hok, List.length_cons]
      omega

/-- C7: `convert_all` processes every queue entry exactly once in queue
order; the final success count plus failure count equals the queue length
(so one file's failure never aborts the rest); and an entry whose path
does not exist is a failure that invokes no adapter and leaves the
filesystem untouched. -/
theorem claim_C7_queue_processing (env : Env) (fmt : String) (sub : Bool)
    (outBase : String) (dpi quality : Nat) (fs : FS) (files : List String) :
    (convertAll env fmt sub outBase dpi quality fs files).processed = files ∧
    (convertAll env fmt sub outBase dpi quality fs files).okCount +
      (convertAll env fmt sub outBase dpi quality fs files).failCount = files.length ∧
    (∀ (fs' : FS) (f : String), ¬ fs'.existsF f = true →
      convertOne env fmt sub outBase dpi quality fs' f =
        { fs := fs', ok := false, calls := [], err := none }) := by
  refine ⟨?_, ?_, fun fs' f h => by unfold convertOne; rw [if_pos h]⟩
  · unfold convertAll
    by_cases he : files.isEmpty
    · rw [if_pos he]
      rw [List.isEmpty_iff] at he
      simp [he]
    · rw [if_neg he]
      rw [convertAll_fold_processed]
      simp
  · unfold convertAll
    by_cases he : files.isEmpty
    · rw [if_pos he]
      rw [List.isEmpty_iff] at he
      simp [he]
    · rw [if_neg he]
      rw [convertAll_fold_counts]
      simp

/-- Witness for C7 on a queue with one existing and one missing file. -/
theorem claim_C7_queue_processing_witness :
    (convertAll okEnv "pdf" true "/out" 200 90 fsA ["/in/a.pdf", "/nope.txt"]).processed =
        ["/in/a.pdf", "/nope.txt"] ∧
    (convertAll okEnv "pdf" true "/out" 200 90 fsA ["/in/a.pdf", "/nope.txt"]).okCount +
        (convertAll okEnv "pdf" true "/out" 200 90 fsA ["/in/a.pdf", "/nope.txt"]).failCount = 2 ∧
    (¬ fsA.existsF "/nope.txt" = true ∧
      convertOne okEnv "pdf" true "/out" 200 90 fsA "/nope.txt" =
        { fs := fsA, ok := false, calls := [], err := none }) :=
  ⟨(claim_C7_queue_processing okEnv "pdf" true "/out" 200 90 fsA ["/in/a.pdf", "/nope.txt"]).1,
   (claim_C7_queue_processing okEnv "pdf" true "/out" 200 90 fsA ["/in/a.pdf", "/nope.txt"]).2.1,
   by decide,
   (claim_C7_queue_processing okEnv "pdf" true "/out" 200 90 fsA
      ["/in/a.pdf", "/nope.txt"]).2.2 fsA "/nope.txt" (by decide)⟩

/-- C6: `merge_pdfs` fails with `MissingDependency` when the PDF-writer
library is unavailable; the merge button invokes the merger only when the
queue holds at least two existing `.pdf` paths (otherwise it warns and
changes nothing); and on success the output document is exactly the
concatenation of the queued PDFs' pages in queue order, so its page count
is the sum of the inputs' page counts. -/
theorem claim_C6_merge (env : Env) (fs : FS) (files : List String)
    (outDir mergeName : String) :
    (∀ (env2 : Env) (fs2 : FS) (paths : List String) (out : String),
        env2.hasPyPDF = false →
        merge_pdfs env2 fs2 paths out = (fs2, some ConvError.missingDependency)) ∧
    ((files.filter (fun p => fileExt p == ".pdf" && fs.existsF p)).length < 2 →
      merge_pdfs_now env fs files outDir mergeName = (fs, MergeReport.warnedTooFew)) ∧
    (2 ≤ (files.filter (fun p => fileExt p == ".pdf" && fs.existsF p)).length →
      env.hasPyPDF = true →
      ∃ out, (merge_pdfs_now env fs files outDir mergeName).2 = MergeReport.mergedOk out ∧
        (merge_pdfs_now env fs files outDir mergeName).1.read out =
          some (((files.filter (fun p => fileExt p == ".pdf" && fs.existsF p)).map
            (fun p => (fs.read p).getD [])).flatten) ∧
        (((files.filter (fun p => fileExt p == ".pdf" && fs.existsF p)).map
            (fun p => (fs.read p).getD [])).flatten).length =
          ((files.filter (fun p => fileExt p == ".pdf" && fs.existsF p)).map
            (fun p => ((fs.read p).getD []).length)).sum) := by
  refine ⟨?_, ?_, ?_⟩
  · intro env2 fs2 paths out h
    unfold merge_pdfs
    rw [if_pos (by simp [h])]
  · intro hlt
    unfold merge_pdfs_now
    rw [if_pos hlt]
  · intro hge hpy
    unfold merge_pdfs_now
    rw [if_neg (by omega)]
    dsimp only
    unfold merge_pdfs
    rw [if_neg (by simp [hpy])]
    dsimp only
    refine ⟨_, rfl, ?_, ?_⟩
    · rw [FS.read_write_self]
      simp only [read_safe_mkdir]
    · simp only [List.length_flatten, List.map_map]
      rfl

/-- Witness for C6: the missing-dependency failure, the too-few warning,
and a successful two-PDF merge, each at concrete inputs. -/
theorem claim_C6_merge_witness :
    (noLibEnv.hasPyPDF = false ∧
      merge_pdfs noLibEnv fsA ["/in/a.pdf"] "/out/m.pdf" =
        (fsA, some ConvError.missingDependency)) ∧
    ((["/in/a.pdf"].filter (fun p => fileExt p == ".pdf" && fsA.existsF p)).length < 2 ∧
      merge_pdfs_now okEnv fsA ["/in/a.pdf"] "/out" "m" = (fsA, MergeReport.warnedTooFew)) ∧
    (2 ≤ ((["/in/a.pdf", "/in/b.pdf"]).filter
        (fun p => fileExt p == ".pdf" && fsA.existsF p)).length ∧
      okEnv.hasPyPDF = true ∧
      ∃ out, (merge_pdfs_now okEnv fsA ["/in/a.pdf", "/in/b.pdf"] "/out" "juntado").2 =
          MergeReport.mergedOk out ∧
        (merge_pdfs_now okEnv fsA ["/in/a.pdf", "/in/b.pdf"] "/out" "juntado").1.read out =
          some ((((["/in/a.pdf", "/in/b.pdf"]).filter
              (fun p => fileExt p == ".pdf" && fsA.existsF p)).map
            (fun p => (fsA.read p).getD [])).flatten) ∧
        (((((["/in/a.pdf", "/in/b.pdf"]).filter
              (fun p => fileExt p == ".pdf" && fsA.existsF p)).map
            (fun p => (fsA.read p).getD [])).flatten)).length =
          (((["/in/a.pdf", "/in/b.pdf"]).filter
              (fun p => fileExt p == ".pdf" && fsA.existsF p)).map
            (fun p => ((fsA.read p).getD []).length)).sum) :=
  ⟨⟨rfl, (claim_C6_merge okEnv fsA [] "/out" "m").1 noLibEnv fsA ["/in/a.pdf"]
      "/out/m.pdf" rfl⟩,
   ⟨by decide, (claim_C6_merge okEnv fsA ["/in/a.pdf"] "/out" "m").2.1 (by decide)⟩,
   by decide, rfl,
   (claim_C6_merge okEnv fsA ["/in/a.pdf", "/in/b.pdf"] "/out" "juntado").2.2
     (by decide) rfl⟩

/-! ### String helpers for path disequalities -/

theorem str_append_ne (a : String) {x y : String} (h : x ≠ y) : a ++ x ≠ a ++ y := by
  intro hc
  apply h
  apply String.ext
  have hd : a.data ++ x.data = a.data ++ y.data := by
    have h2 := congrArg String.data hc
    rw [String.data_append, String.data_append] at h2
    exact h2
  exact List.append_cancel_left hd

theorem office_ext_ne_pdf {e : String} (h : e ∈ OFFICE_EXTS) : e ≠ ".pdf" := by
  intro hc
  rw [hc] at h
  exact absurd h (by decide)

theorem office_not_image {e : String} (h : e ∈ OFFICE_EXTS) : e ∉ IMAGE_EXTS := by
  intro hmem
  have hdisj : ∀ x ∈ OFFICE_EXTS, x ∉ IMAGE_EXTS := by decide
  exact hdisj e h hmem

/-- C8: the office adapter fails with `MissingDependency` when neither
`soffice` nor `libreoffice` is discoverable; after a successful run it
locates the produced PDF among `{stem}.pdf` / `{stem}.PDF` and fails with
`ConversionError` when neither exists; and when the located file differs
from the canonical `{sanitizedBaseName}.pdf`, the dispatcher renames it to
the canonical name (the canonical path then holds the produced document
and the produced path is gone). -/
theorem claim_C8_office_conversion (env : Env) (fs : FS) (f outDir : String)
    (sub : Bool) (outBase : String) (dpi quality : Nat) :
    ((env.which "soffice").orElse (fun _ => env.which "libreoffice") = none →
      office_to_pdf env fs f outDir = (fs, Except.error ConvError.missingDependency)) ∧
    (∀ w, (env.which "soffice").orElse (fun _ => env.which "libreoffice") = some w →
      env.officeRunOk f = true →
      fs.existsF (outDir ++ "/" ++ pyStem f ++ ".pdf") = false →
      fs.existsF (outDir ++ "/" ++ pyStem f ++ ".PDF") = false →
      env.officeProducedName f ≠ pyStem f ++ ".pdf" →
      env.officeProducedName f ≠ pyStem f ++ ".PDF" →
      (office_to_pdf env fs f outDir).2 = Except.error ConvError.conversionError) ∧
    (∀ (fs1 : FS) (produced : String), fs.existsF f = true → fileExt f ∈ OFFICE_EXTS →
      office_to_pdf env
          (safe_mkdir fs
            (if sub then outBase ++ "/" ++ sanitize_basename (pyStem f) else outBase)) f
          (if sub then outBase ++ "/" ++ sanitize_basename (pyStem f) else outBase) =
        (fs1, Except.ok produced) →
      produced ≠ (if sub then outBase ++ "/" ++ sanitize_basename (pyStem f) else outBase) ++
          "/" ++ sanitize_basename (pyStem f) ++ ".pdf" →
      fs1.existsF produced = true →
      (convertOne env "pdf" sub outBase dpi quality fs f).ok = true ∧
      (convertOne env "pdf" sub outBase dpi quality fs f).fs.read
          ((if sub then outBase ++ "/" ++ sanitize_basename (pyStem f) else outBase) ++
            "/" ++ sanitize_basename (pyStem f) ++ ".pdf") = fs1.read produced ∧
      (convertOne env "pdf" sub outBase dpi quality fs f).fs.read produced = none) := by
  refine ⟨?_, ?_, ?_⟩
  · intro h
    unfold office_to_pdf
    rw [h]
  · intro w hw hrun h1 h2 h3 h4
    unfold office_to_pdf
    rw [hw]
    dsimp only
    rw [if_neg (by simp [hrun])]
    have hassoc1 : outDir ++ "/" ++ pyStem f ++ ".pdf" =
        (outDir ++ "/") ++ (pyStem f ++ ".pdf") := by
      rw [String.append_assoc]
    have hassoc2 : outDir ++ "/" ++ pyStem f ++ ".PDF" =
        (outDir ++ "/") ++ (pyStem f ++ ".PDF") := by
      rw [String.append_assoc]
    have hne1 : outDir ++ "/" ++ pyStem f ++ ".pdf" ≠
        outDir ++ "/" ++ env.officeProducedName f := by
      rw [hassoc1]
      exact fun hc => (str_append_ne (outDir ++ "/") h3)
        ((String.append_assoc outDir "/" (env.officeProducedName f)) ▸ hc.symm)
    have hne2 : outDir ++ "/" ++ pyStem f ++ ".PDF" ≠
        outDir ++ "/" ++ env.officeProducedName f := by
      rw [hassoc2]
      exact fun hc => (str_append_ne (outDir ++ "/") h4)
        ((String.append_assoc outDir "/" (env.officeProducedName f)) ▸ hc.symm)
    have hx1 : ((safe_mkdir fs outDir).write
        (outDir ++ "/" ++ env.officeProducedName f) (env.officePdfBytes f)).existsF
        (outDir ++ "/" ++ pyStem f ++ ".pdf") = false := by
      rw [FS.existsF_write_ne _ _ _ _ hne1, existsF_safe_mkdir]
      exact h1
    have hx2 : ((safe_mkdir fs outDir).write
        (outDir ++ "/" ++ env.officeProducedName f) (env.officePdfBytes f)).existsF
        (outDir ++ "/" ++ pyStem f ++ ".PDF") = false := by
      rw [FS.existsF_write_ne _ _ _ _ hne2, existsF_safe_mkdir]
      exact h2
    rw [if_neg (by simp [hx1]), if_neg (by simp [hx1]), if_neg (by simp [hx2])]
    rfl
  · intro fs1 produced hex hoff hoffice hne hep
    have hnp : ¬ fileExt f = ".pdf" := office_ext_ne_pdf hoff
    have hni : fileExt f ∉ IMAGE_EXTS := office_not_image hoff
    obtain ⟨d, hd⟩ := FS.read_eq_some_of_existsF fs1 produced hep
    unfold convertOne
    rw [if_neg (by simp [hex])]
    dsimp only
    rw [if_neg (by decide : ¬ ("pdf" : String) = "txt"), if_pos rfl, if_neg hnp,
      if_neg hni, if_pos hoff, hoffice]
    dsimp only
    rw [if_pos ⟨hne, hep⟩]
    by_cases hcan : fs1.existsF
        ((if sub then outBase ++ "/" ++ sanitize_basename (pyStem f) else outBase) ++
          "/" ++ sanitize_basename (pyStem f) ++ ".pdf") = true
    · rw [if_pos hcan]
      refine ⟨rfl, ?_, ?_⟩
      · rw [FS.read_write_self, FS.read_unlink_ne _ _ _ hne, hd]
        rfl
      · rw [FS.read_write_ne _ _ _ _ hne, FS.read_unlink_self]
    · rw [if_neg hcan]
      refine ⟨rfl, ?_, ?_⟩
      · rw [FS.read_write_self, hd]
        rfl
      · rw [FS.read_write_ne _ _ _ _ hne, FS.read_unlink_self]

/-- Witness for C8: missing engine, lost output, and the upper-case-`.PDF`
rename, each at concrete inputs. -/
theorem claim_C8_office_conversion_witness :
    (((noLibEnv.which "soffice").orElse (fun _ => noLibEnv.which "libreoffice") = none ∧
      office_to_pdf noLibEnv fsA "/in/Doc.docx" "/out" =
        (fsA, Except.error ConvError.missingDependency)) ∧
     ((lostOutputEnv.which "soffice").orElse (fun _ => lostOutputEnv.which "libreoffice") =
          some "/usr/bin/soffice" ∧
      lostOutputEnv.officeRunOk "/in/Doc.docx" = true ∧
      fsA.existsF ("/out" ++ "/" ++ pyStem "/in/Doc.docx" ++ ".pdf") = false ∧
      fsA.existsF ("/out" ++ "/" ++ pyStem "/in/Doc.docx" ++ ".PDF") = false ∧
      lostOutputEnv.officeProducedName "/in/Doc.docx" ≠ pyStem "/in/Doc.docx" ++ ".pdf" ∧
      lostOutputEnv.officeProducedName "/in/Doc.docx" ≠ pyStem "/in/Doc.docx" ++ ".PDF" ∧
      (office_to_pdf lostOutputEnv fsA "/in/Doc.docx" "/out").2 =
        Except.error ConvError.conversionError)) ∧
    (fsA.existsF "/in/Doc.docx" = true ∧ fileExt "/in/Doc.docx" ∈ OFFICE_EXTS ∧
      (convertOne okEnv "pdf" true "/out" 200 90 fsA "/in/Doc.docx").ok = true ∧
      (convertOne okEnv "pdf" true "/out" 200 90 fsA "/in/Doc.docx").fs.read
          ((if true then "/out" ++ "/" ++ sanitize_basename (pyStem "/in/Doc.docx")
            else "/out") ++ "/" ++ sanitize_basename (pyStem "/in/Doc.docx") ++ ".pdf") =
        (office_to_pdf okEnv
          (safe_mkdir fsA
            (if true then "/out" ++ "/" ++ sanitize_basename (pyStem "/in/Doc.docx")
             else "/out")) "/in/Doc.docx"
          (if true then "/out" ++ "/" ++ sanitize_basename (pyStem "/in/Doc.docx")
           else "/out")).1.read "/out/Doc/Doc.PDF" ∧
      (convertOne okEnv "pdf" true "/out" 200 90 fsA "/in/Doc.docx").fs.read
          "/out/Doc/Doc.PDF" = none) :=
  ⟨⟨⟨rfl, (claim_C8_office_conversion noLibEnv fsA "/in/Doc.docx" "/out" true "/out"
        200 90).1 rfl⟩,
    by decide, by decide, by decide, by decide, by decide, by decide,
    (claim_C8_office_conversion lostOutputEnv fsA "/in/Doc.docx" "/out" true "/out"
        200 90).2.1 "/usr/bin/soffice" (by decide) (by decide) (by decide) (by decide)
      (by decide) (by decide)⟩,
   by decide, by decide,
   (claim_C8_office_conversion okEnv fsA "/in/Doc.docx" "/out" true "/out" 200 90).2.2
     (office_to_pdf okEnv
       (safe_mkdir fsA
         (if true then "/out" ++ "/" ++ sanitize_basename (pyStem "/in/Doc.docx")
          else "/out")) "/in/Doc.docx"
       (if true then "/out" ++ "/" ++ sanitize_basename (pyStem "/in/Doc.docx")
        else "/out")).1 "/out/Doc/Doc.PDF" (by decide) (by decide) (by decide)
     (by decide) (by decide)⟩

/-! ### Rasterization lemmas -/

theorem FS.read_isSome_write (fs : FS) (p q : String) (b : Bytes)
    (h : fs.read p ≠ none) : (fs.write q b).read p ≠ none := by
  by_cases hpq : p = q
  · subst hpq
    rw [FS.read_write_self]
    exact Option.some_ne_none b
  · rw [FS.read_write_ne _ _ _ _ hpq]
    exact h

theorem convert_image_file_ok (env : Env) (fs : FS) (in_path out_path fmt : String)
    (quality : Nat) (hdec : env.imgDecodeOk in_path = true) (hfmt : fmt ∈ RASTER_FORMATS) :
    convert_image_file env fs in_path out_path fmt quality =
      ((safe_mkdir fs (dirName out_path)).write out_path
        (env.encodeImage in_path fmt quality), none) := by
  unfold convert_image_file
  rw [if_neg (by simp [hdec])]
  simp only [RASTER_FORMATS, List.mem_cons, List.not_mem_nil, or_false] at hfmt
  rcases hfmt with rfl | rfl | rfl | rfl | rfl <;> simp

theorem str_append_suffix_ne (a b : String) {s t : String}
    (hlen : s.data.length = t.data.length) (hst : s ≠ t) : a ++ s ≠ b ++ t := by
  intro hc
  apply hst
  have h2 := congrArg String.data hc
  rw [String.data_append, String.data_append] at h2
  exact String.ext (List.append_inj' h2 hlen).2

/-- No page output path of a non-png raster format collides with any
intermediate png path. -/
theorem out_ne_tmp (fmt : String) (hfmt : fmt ∈ ["jpg", "webp", "tiff", "bmp"]) :
    ∀ x y : String, x ++ "." ++ fmt ≠ y ++ ".png" := by
  have hpng : ∀ y : String, y ++ ".png" = (y ++ ".") ++ "png" := by
    intro y
    rw [String.append_assoc]
    rw [show ("." ++ "png" : String) = ".png" from by decide]
  simp only [List.mem_cons, List.not_mem_nil, or_false] at hfmt
  rcases hfmt with rfl | rfl | rfl | rfl <;> intro x y
  · rw [hpng]
    exact str_append_suffix_ne _ _ (by decide) (by decide)
  · exact str_append_suffix_ne _ _ (by decide) (by decide)
  · exact str_append_suffix_ne _ _ (by decide) (by decide)
  · rw [hpng]
    exact str_append_suffix_ne _ _ (by decide) (by decide)

/-- Two page paths with the same surroundings and the same page number
format agree only on equal page numbers. -/
theorem pagePath_inj (out_dir pref sfx : String) {i j : Nat}
    (h : out_dir ++ "/" ++ pref ++ "-" ++ fmt03 i ++ sfx =
      out_dir ++ "/" ++ pref ++ "-" ++ fmt03 j ++ sfx) : i = j := by
  apply fmt03_inj
  apply String.ext
  have h2 := congrArg String.data h
  simp only [String.data_append, List.append_assoc] at h2
  have h3 := List.append_cancel_left h2
  have h4 := List.append_cancel_left h3
  have h5 := List.append_cancel_left h4
  have h6 := List.append_cancel_left h5
  exact List.append_cancel_right h6

/-- Per-page loop invariant for a non-png raster format: no error, outputs
named `{prefix}-{i:03d}.{fmt}` in page order, intermediates unlinked
exactly when their unlink succeeds, existing non-intermediate files
persist, and every listed output is present at the end. -/
theorem rasterPages_nonpng (env : Env) (pdf out_dir fmt : String) (dpi quality : Nat)
    (pref : String) (hfmt : fmt ∈ ["jpg", "webp", "tiff", "bmp"])
    (hdec : ∀ p, env.imgDecodeOk p = true) :
    ∀ (L : List Nat) (fs : FS),
      (rasterPages env pdf out_dir fmt dpi quality pref L fs).2.2.2 = none ∧
      (rasterPages env pdf out_dir fmt dpi quality pref L fs).2.1 =
        L.map (fun i => out_dir ++ "/" ++ pref ++ "-" ++ fmt03 i ++ "." ++ fmt) ∧
      (rasterPages env pdf out_dir fmt dpi quality pref L fs).2.2.1 =
        (L.map (fun i => out_dir ++ "/" ++ pref ++ "-" ++ fmt03 i ++ ".png")).filter
          (fun t => env.unlinkOk t) ∧
      (∀ p : String, (∀ j ∈ L, p ≠ out_dir ++ "/" ++ pref ++ "-" ++ fmt03 j ++ ".png") →
        fs.read p ≠ none →
        (rasterPages env pdf out_dir fmt dpi quality pref L fs).1.read p ≠ none) ∧
      (∀ i ∈ L, (rasterPages env pdf out_dir fmt dpi quality pref L fs).1.read
        (out_dir ++ "/" ++ pref ++ "-" ++ fmt03 i ++ "." ++ fmt) ≠ none) := by
  have hpng : ¬ fmt = "png" := by
    simp only [List.mem_cons, List.not_mem_nil, or_false] at hfmt
    rcases hfmt with rfl | rfl | rfl | rfl <;> decide
  have hfmt5 : fmt ∈ RASTER_FORMATS := by
    simp only [List.mem_cons, List.not_mem_nil, or_false] at hfmt
    simp only [RASTER_FORMATS, List.mem_cons, List.not_mem_nil, or_false]
    tauto
  have hont := out_ne_tmp fmt hfmt
  intro L
  induction L with
  | nil =>
    intro fs
    exact ⟨rfl, rfl, rfl, fun p _ h => h, fun i hi => absurd hi (List.not_mem_nil i)⟩
  | cons i rest ih =>
    intro fs
    simp only [rasterPages]
    rw [if_neg hpng]
    rw [convert_image_file_ok env _ _ _ fmt quality (hdec _) hfmt5]
    dsimp only
    by_cases hu : env.unlinkOk (out_dir ++ "/" ++ pref ++ "-" ++ fmt03 i ++ ".png") = true
    · rw [if_pos hu]
      dsimp only
      obtain ⟨A, B, C, D, E⟩ := ih
        ((((safe_mkdir (fs.write (out_dir ++ "/" ++ pref ++ "-" ++ fmt03 i ++ ".png")
            (env.renderPage pdf dpi i))
            (dirName (out_dir ++ "/" ++ pref ++ "-" ++ fmt03 i ++ "." ++ fmt))).write
          (out_dir ++ "/" ++ pref ++ "-" ++ fmt03 i ++ "." ++ fmt)
          (env.encodeImage (out_dir ++ "/" ++ pref ++ "-" ++ fmt03 i ++ ".png") fmt
            quality))).unlink (out_dir ++ "/" ++ pref ++ "-" ++ fmt03 i ++ ".png"))
      refine ⟨A, ?_, ?_, ?_, ?_⟩
      · rw [B]
        simp
      · rw [C]
        simp [List.filter_cons, hu]
      · intro p hp hread
        apply D
        · intro j hj
          exact hp j (List.mem_cons_of_mem i hj)
        · have hpi : p ≠ out_dir ++ "/" ++ pref ++ "-" ++ fmt03 i ++ ".png" :=
            hp i (List.mem_cons_self i rest)
          rw [FS.read_unlink_ne _ _ _ hpi]
          apply FS.read_isSome_write
          rw [read_safe_mkdir]
          apply FS.read_isSome_write
          exact hread
      · intro i' hi'
        rcases List.mem_cons.mp hi' with rfl | hi'
        · apply D
          · intro j hj
            exact hont _ _
          · rw [FS.read_unlink_ne _ _ _ (hont _ _), FS.read_write_self]
            exact Option.some_ne_none _
        · exact E i' hi'
    · rw [if_neg hu]
      dsimp only
      obtain ⟨A, B, C, D, E⟩ := ih
        (((safe_mkdir (fs.write (out_dir ++ "/" ++ pref ++ "-" ++ fmt03 i ++ ".png")
            (env.renderPage pdf dpi i))
            (dirName (out_dir ++ "/" ++ pref ++ "-" ++ fmt03 i ++ "." ++ fmt))).write
          (out_dir ++ "/" ++ pref ++ "-" ++ fmt03 i ++ "." ++ fmt)
          (env.encodeImage (out_dir ++ "/" ++ pref ++ "-" ++ fmt03 i ++ ".png") fmt
            quality)))
      refine ⟨A, ?_, ?_, ?_, ?_⟩
      · rw [B]
        simp
      · rw [C]
        simp [List.filter_cons, hu]
      · intro p hp hread
        apply D
        · intro j hj
          exact hp j (List.mem_cons_of_mem i hj)
        · apply FS.read_isSome_write
          rw [read_safe_mkdir]
          apply FS.read_isSome_write
          exact hread
      · intro i' hi'
        rcases List.mem_cons.mp hi' with rfl | hi'
        · apply D
          · intro j hj
            exact hont _ _
          · rw [FS.read_write_self]
            exact Option.some_ne_none _
        · exact E i' hi'

/-- Per-page loop invariant for the native png format: the rendered pages
are the outputs and nothing is unlinked. -/
theorem rasterPages_png (env : Env) (pdf out_dir : String) (dpi quality : Nat)
    (pref : String) :
    ∀ (L : List Nat) (fs : FS),
      (rasterPages env pdf out_dir "png" dpi quality pref L fs).2.2.2 = none ∧
      (rasterPages env pdf out_dir "png" dpi quality pref L fs).2.1 =
        L.map (fun i => out_dir ++ "/" ++ pref ++ "-" ++ fmt03 i ++ ".png") ∧
      (rasterPages env pdf out_dir "png" dpi quality pref L fs).2.2.1 = [] ∧
      (∀ p : String, fs.read p ≠ none →
        (rasterPages env pdf out_dir "png" dpi quality pref L fs).1.read p ≠ none) ∧
      (∀ i ∈ L, (rasterPages env pdf out_dir "png" dpi quality pref L fs).1.read
        (out_dir ++ "/" ++ pref ++ "-" ++ fmt03 i ++ ".png") ≠ none) := by
  intro L
  induction L with
  | nil =>
    intro fs
    exact ⟨rfl, rfl, rfl, fun p h => h, fun i hi => absurd hi (List.not_mem_nil i)⟩
  | cons i rest ih =>
    intro fs
    simp only [rasterPages]
    rw [if_pos trivial]
    dsimp only
    obtain ⟨A, B, C, D, E⟩ := ih
      (fs.write (out_dir ++ "/" ++ pref ++ "-" ++ fmt03 i ++ ".png")
        (env.renderPage pdf dpi i))
    refine ⟨A, ?_, C, ?_, ?_⟩
    · rw [B]
      simp
    · intro p hread
      exact D p (FS.read_isSome_write _ _ _ _ hread)
    · intro i' hi'
      rcases List.mem_cons.mp hi' with rfl | hi'
      · apply D
        rw [FS.read_write_self]
        exact Option.some_ne_none _
      · exact E i' hi'

/-- As `pagePath_inj`, for a suffix built from two appends. -/
theorem pagePath_inj2 (out_dir pref sfx1 sfx2 : String) {i j : Nat}
    (h : out_dir ++ "/" ++ pref ++ "-" ++ fmt03 i ++ sfx1 ++ sfx2 =
      out_dir ++ "/" ++ pref ++ "-" ++ fmt03 j ++ sfx1 ++ sfx2) : i = j := by
  apply fmt03_inj
  apply String.ext
  have h2 := congrArg String.data h
  simp only [String.data_append, List.append_assoc] at h2
  have h3 := List.append_cancel_left h2
  have h4 := List.append_cancel_left h3
  have h5 := List.append_cancel_left h4
  have h6 := List.append_cancel_left h5
  exact List.append_cancel_right h6

/-- C4: rasterizing an `N`-page PDF at any DPI to any raster format
produces exactly `N` distinct output files named
`{prefix}-{i:03d}.{format}` for pages `i = 1..N` in document order, all
present afterwards; when the format is not png, each page's intermediate
`{prefix}-{i:03d}.png` is unlinked exactly when its deletion succeeds, and
a failed deletion never makes the rasterization fail (the run succeeds for
every unlink oracle). -/
theorem claim_C4_rasterize_naming (env : Env) (fs : FS) (pdf_path out_dir fmt : String)
    (dpi quality : Nat) (pref : String)
    (hmu : env.hasPyMuPDF = true) (hopen : env.pdfOpenOk pdf_path = true)
    (hdec : ∀ p, env.imgDecodeOk p = true) (hfmt : fmt ∈ RASTER_FORMATS) :
    (pdf_to_images_pymupdf env fs pdf_path out_dir fmt dpi quality pref).2.2.2 = none ∧
    (pdf_to_images_pymupdf env fs pdf_path out_dir fmt dpi quality pref).2.1 =
      (List.range (env.npages pdf_path)).map
        (fun k => out_dir ++ "/" ++ pref ++ "-" ++ fmt03 (k + 1) ++ "." ++ fmt) ∧
    (pdf_to_images_pymupdf env fs pdf_path out_dir fmt dpi quality pref).2.1.Nodup ∧
    (∀ p ∈ (pdf_to_images_pymupdf env fs pdf_path out_dir fmt dpi quality pref).2.1,
      (pdf_to_images_pymupdf env fs pdf_path out_dir fmt dpi quality pref).1.read p ≠ none) ∧
    (fmt ≠ "png" →
      (pdf_to_images_pymupdf env fs pdf_path out_dir fmt dpi quality pref).2.2.1 =
        ((List.range (env.npages pdf_path)).map
          (fun k => out_dir ++ "/" ++ pref ++ "-" ++ fmt03 (k + 1) ++ ".png")).filter
          (fun t => env.unlinkOk t)) ∧
    (fmt = "png" →
      (pdf_to_images_pymupdf env fs pdf_path out_dir fmt dpi quality pref).2.2.1 = []) := by
  unfold pdf_to_images_pymupdf
  rw [if_neg (by simp [hmu])]
  dsimp only
  rw [if_neg (by simp [hopen])]
  have hpngstr : ∀ y : String, y ++ ".png" = (y ++ ".") ++ "png" := by
    intro y
    rw [String.append_assoc]
    rw [show ("." ++ "png" : String) = ".png" from by decide]
  by_cases hp : fmt = "png"
  · subst hp
    obtain ⟨A, B, C, D, E⟩ := rasterPages_png env pdf_path out_dir dpi quality pref
      ((List.range (env.npages pdf_path)).map (· + 1)) (safe_mkdir fs out_dir)
    refine ⟨A, ?_, ?_, ?_, fun h => absurd rfl h, fun _ => C⟩
    · rw [B, List.map_map]
      refine List.map_congr_left (fun k _ => ?_)
      show out_dir ++ "/" ++ pref ++ "-" ++ fmt03 (k + 1) ++ ".png" = _
      rw [hpngstr]
    · rw [B, List.map_map]
      refine List.Nodup.map ?_ (List.nodup_range _)
      intro a b hab
      have h2 := pagePath_inj out_dir pref ".png" hab
      have h3 : a + 1 = b + 1 := h2
      omega
    · intro p hp2
      rw [B] at hp2
      obtain ⟨k, hk, rfl⟩ := List.mem_map.mp hp2
      exact E k hk
  · have hfmt4 : fmt ∈ ["jpg", "webp", "tiff", "bmp"] := by
      simp only [RASTER_FORMATS, List.mem_cons, List.not_mem_nil, or_false] at hfmt
      simp only [List.mem_cons, List.not_mem_nil, or_false]
      tauto
    obtain ⟨A, B, C, D, E⟩ := rasterPages_nonpng env pdf_path out_dir fmt dpi quality pref
      hfmt4 hdec ((List.range (env.npages pdf_path)).map (· + 1)) (safe_mkdir fs out_dir)
    refine ⟨A, ?_, ?_, ?_, fun _ => ?_, fun h => absurd h hp⟩
    · rw [B, List.map_map]
      rfl
    · rw [B, List.map_map]
      refine List.Nodup.map ?_ (List.nodup_range _)
      intro a b hab
      have h2 := pagePath_inj2 out_dir pref "." fmt hab
      have h3 : a + 1 = b + 1 := h2
      omega
    · intro p hp2
      rw [B] at hp2
      obtain ⟨k, hk, rfl⟩ := List.mem_map.mp hp2
      exact E k hk
    · rw [C, List.map_map]
      rfl

/-- Witness for C4: rasterizing the 3-page PDF `/in/a.pdf` to jpg at
150 DPI. -/
theorem claim_C4_rasterize_naming_witness :
    (okEnv.hasPyMuPDF = true ∧ okEnv.pdfOpenOk "/in/a.pdf" = true ∧
      (∀ p, okEnv.imgDecodeOk p = true) ∧ "jpg" ∈ RASTER_FORMATS) ∧
    ((pdf_to_images_pymupdf okEnv fsA "/in/a.pdf" "/out/a" "jpg" 150 90 "a").2.2.2 = none ∧
      (pdf_to_images_pymupdf okEnv fsA "/in/a.pdf" "/out/a" "jpg" 150 90 "a").2.1 =
        (List.range (okEnv.npages "/in/a.pdf")).map
          (fun k => "/out/a" ++ "/" ++ "a" ++ "-" ++ fmt03 (k + 1) ++ "." ++ "jpg") ∧
      (pdf_to_images_pymupdf okEnv fsA "/in/a.pdf" "/out/a" "jpg" 150 90 "a").2.1.Nodup ∧
      (∀ p ∈ (pdf_to_images_pymupdf okEnv fsA "/in/a.pdf" "/out/a" "jpg" 150 90 "a").2.1,
        (pdf_to_images_pymupdf okEnv fsA "/in/a.pdf" "/out/a" "jpg" 150 90 "a").1.read p ≠
          none) ∧
      ("jpg" ≠ "png" →
        (pdf_to_images_pymupdf okEnv fsA "/in/a.pdf" "/out/a" "jpg" 150 90 "a").2.2.1 =
          ((List.range (okEnv.npages "/in/a.pdf")).map
            (fun k => "/out/a" ++ "/" ++ "a" ++ "-" ++ fmt03 (k + 1) ++ ".png")).filter
            (fun t => okEnv.unlinkOk t)) ∧
      ("jpg" = "png" →
        (pdf_to_images_pymupdf okEnv fsA "/in/a.pdf" "/out/a" "jpg" 150 90 "a").2.2.1 = [])) :=
  ⟨⟨rfl, rfl, fun _ => rfl, by decide⟩,
   claim_C4_rasterize_naming okEnv fsA "/in/a.pdf" "/out/a" "jpg" 150 90 "a" rfl rfl
     (fun _ => rfl) (by decide)⟩


/-! ### Queue lemmas -/

theorem addPaths_append (q ps : List String) :
    ∃ new, addPaths q ps = q ++ new ∧ ∀ p ∈ new, p ∉ q := by
  induction ps generalizing q with
  | nil => exact ⟨[], by simp [addPaths], by simp⟩
  | cons p ps ih =>
    unfold addPaths
    rw [List.foldl_cons]
    by_cases hc : p ≠ "" ∧ p ∉ q
    · rw [if_pos hc]
      obtain ⟨new, h1, h2⟩ := ih (q ++ [p])
      refine ⟨p :: new, ?_, ?_⟩
      · show addPaths (q ++ [p]) ps = _
        rw [h1]
        simp
      · intro x hx
        rcases List.mem_cons.mp hx with rfl | hx
        · exact hc.2
        · intro hxq
          exact h2 x hx (List.mem_append_left _ hxq)
    · rw [if_neg hc]
      exact ih q

theorem addPaths_nodup (q ps : List String) (hq : q.Nodup) : (addPaths q ps).Nodup := by
  induction ps generalizing q with
  | nil => exact hq
  | cons p ps ih =>
    unfold addPaths
    rw [List.foldl_cons]
    by_cases hc : p ≠ "" ∧ p ∉ q
    · rw [if_pos hc]
      exact ih (q ++ [p]) (by simp [List.nodup_append, hq, hc.2])
    · rw [if_neg hc]
      exact ih q hq

theorem addPaths_unchanged (q ps : List String) (h : ∀ p ∈ ps, p = "" ∨ p ∈ q) :
    addPaths q ps = q := by
  induction ps with
  | nil => rfl
  | cons p ps ih =>
    unfold addPaths
    rw [List.foldl_cons]
    have : ¬ (p ≠ "" ∧ p ∉ q) := by
      rcases h p (List.mem_cons_self p ps) with h1 | h1
      · intro hc; exact hc.1 h1
      · intro hc; exact hc.2 h1
    rw [if_neg this]
    exact ih (fun x hx => h x (List.mem_cons_of_mem p hx))

theorem removeSelected_sublist (q : List String) (sel : List Nat) :
    List.Sublist (removeSelected q sel) q := by
  unfold removeSelected
  generalize sel.reverse = d
  induction d generalizing q with
  | nil => exact List.Sublist.refl q
  | cons i t ih =>
    rw [List.foldl_cons]
    cases hq : q.get? i with
    | none => exact ih q
    | some path =>
      exact List.Sublist.trans (ih (q.erase path)) (List.erase_sublist path q)

theorem nodup_erase_get (q : List String) (i : Nat) (h : i < q.length) (hq : q.Nodup) :
    q.erase (q.get ⟨i, h⟩) = q.eraseIdx i := by
  induction q generalizing i with
  | nil => simp at h
  | cons a t ih =>
    cases i with
    | zero => simp [List.erase_cons_head]
    | succ i =>
      have hlt : i < t.length := by simpa using h
      have hget : (a :: t).get ⟨i + 1, h⟩ = t.get ⟨i, hlt⟩ := rfl
      have hne : a ≠ t.get ⟨i, hlt⟩ := by
        intro hc
        exact (List.nodup_cons.mp hq).1 (hc ▸ List.get_mem t i hlt)
      rw [hget, List.erase_cons_tail (by simpa using hne), ih i hlt
        (List.nodup_cons.mp hq).2]
      rfl

theorem keepAux_high (B : List String) (n : Nat) (sel : List Nat)
    (h : ∀ i ∈ sel, i < n) : keepAux n B sel = B := by
  induction B generalizing n with
  | nil => rfl
  | cons b B ih =>
    unfold keepAux
    rw [if_neg (fun hc => absurd (h n hc) (by omega))]
    rw [ih (n + 1) (fun i hi => by have := h i hi; omega)]

theorem keepAux_append (A B : List String) (sel : List Nat) :
    ∀ n, keepAux n (A ++ B) sel = keepAux n A sel ++ keepAux (n + A.length) B sel := by
  induction A with
  | nil => intro n; simp [keepAux]
  | cons a A ih =>
    intro n
    simp only [List.cons_append, keepAux, List.length_cons]
    rw [show n + (A.length + 1) = n + 1 + A.length from by omega]
    by_cases hc : n ∈ sel
    · rw [if_pos hc, if_pos hc]
      exact ih (n + 1)
    · rw [if_neg hc, if_neg hc]
      exact congrArg (a :: ·) (ih (n + 1))

theorem keepAux_congr (A : List String) (n : Nat) (s1 s2 : List Nat)
    (h : ∀ i, n ≤ i → i < n + A.length → (i ∈ s1 ↔ i ∈ s2)) :
    keepAux n A s1 = keepAux n A s2 := by
  induction A generalizing n with
  | nil => rfl
  | cons a A ih =>
    unfold keepAux
    have hn : n ∈ s1 ↔ n ∈ s2 := h n (le_refl n) (by simp)
    have hrest := ih (n + 1) (fun i h1 h2 => h i (by omega) (by simpa [Nat.add_comm] using by omega))
    by_cases hc : n ∈ s1
    · rw [if_pos hc, if_pos (hn.mp hc), hrest]
    · rw [if_neg hc, if_neg (fun hc2 => hc (hn.mpr hc2)), hrest]


theorem removeSelectedSpec_eraseIdx (q : List String) (j : Nat) (rest : List Nat)
    (hj : j < q.length) (hrest : ∀ i ∈ rest, i < j) :
    removeSelectedSpec (q.eraseIdx j) rest = removeSelectedSpec q (j :: rest) := by
  unfold removeSelectedSpec
  have hlen : (q.take j).length = j := by
    rw [List.length_take]
    omega
  conv_rhs => rw [← List.take_append_drop j q, List.drop_eq_get_cons hj]
  rw [List.eraseIdx_eq_take_drop_succ, keepAux_append, keepAux_append, hlen]
  simp only [Nat.zero_add]
  have h1 : keepAux 0 (q.take j) rest = keepAux 0 (q.take j) (j :: rest) := by
    refine keepAux_congr _ 0 _ _ (fun i hge hlt => ?_)
    have hij : i < j := by
      rw [hlen] at hlt
      omega
    simp only [List.mem_cons]
    exact ⟨Or.inr, fun h => h.resolve_left (by omega)⟩
  have h2 : keepAux j (q.drop (j + 1)) rest = q.drop (j + 1) :=
    keepAux_high _ _ _ (fun i hi => by have := hrest i hi; omega)
  have h3 : keepAux j (q.get ⟨j, hj⟩ :: q.drop (j + 1)) (j :: rest) = q.drop (j + 1) := by
    simp only [keepAux]
    rw [if_pos (List.mem_cons_self j rest)]
    exact keepAux_high _ _ _ (fun i hi => by
      rcases List.mem_cons.mp hi with rfl | hi
      · omega
      · have := hrest i hi
        omega)
  rw [h1, h2, h3]

theorem removeSelected_desc (d : List Nat) :
    ∀ (q : List String), q.Nodup → List.Pairwise (· > ·) d → (∀ i ∈ d, i < q.length) →
    d.foldl (fun fl i =>
      match fl.get? i with
      | some path => fl.erase path
      | none => fl) q = removeSelectedSpec q d := by
  induction d with
  | nil =>
    intro q _ _ _
    show q = removeSelectedSpec q []
    unfold removeSelectedSpec
    rw [keepAux_high q 0 [] (by simp)]
  | cons j rest ih =>
    intro q hq hpair hval
    have hj : j < q.length := hval j (List.mem_cons_self _ _)
    rw [List.foldl_cons, List.get?_eq_get hj]
    dsimp only
    rw [nodup_erase_get q j hj hq]
    have hrest : ∀ i ∈ rest, i < j := fun i hi => (List.pairwise_cons.mp hpair).1 i hi
    rw [ih (q.eraseIdx j)
      (List.Nodup.sublist (List.eraseIdx_sublist q j) hq)
      (List.pairwise_cons.mp hpair).2
      (fun i hi => by
        rw [List.length_eraseIdx_of_lt hj]
        have := hrest i hi
        omega)]
    exact removeSelectedSpec_eraseIdx q j rest hj hrest

theorem removeSelected_eq_spec (q : List String) (sel : List Nat)
    (hq : q.Nodup) (hsort : List.Pairwise (· < ·) sel) (hval : ∀ i ∈ sel, i < q.length) :
    removeSelected q sel = removeSelectedSpec q sel := by
  unfold removeSelected
  have hpair : List.Pairwise (· > ·) sel.reverse := by
    rw [List.pairwise_reverse]
    exact hsort
  rw [removeSelected_desc sel.reverse q hq hpair
    (fun i hi => hval i (List.mem_reverse.mp hi))]
  unfold removeSelectedSpec
  exact keepAux_congr _ 0 _ _ (fun i _ _ => List.mem_reverse)

/-- C9: starting from the empty queue, every sequence of add / remove /
clear operations keeps the queue free of duplicate paths; adding appends
only new non-empty paths at the end (so a path that is already present
leaves the queue unchanged for that path, and adding nothing new is a
no-op); removing yields a sublist (insertion order of the remaining
entries is kept) that, for a valid ascending selection on a duplicate-free
queue, drops exactly the selected indices; and clear empties the queue. -/
theorem claim_C9_queue_invariant :
    (∀ ops : List QOp, (runQOps ops).Nodup) ∧
    (∀ q ps : List String, ∃ new, addPaths q ps = q ++ new ∧ ∀ p ∈ new, p ∉ q) ∧
    (∀ q ps : List String, (∀ p ∈ ps, p = "" ∨ p ∈ q) → addPaths q ps = q) ∧
    (∀ (q : List String) (sel : List Nat), List.Sublist (removeSelected q sel) q) ∧
    (∀ (q : List String) (sel : List Nat), q.Nodup → List.Pairwise (· < ·) sel →
      (∀ i ∈ sel, i < q.length) → removeSelected q sel = removeSelectedSpec q sel) ∧
    (∀ q : List String, clearFiles q = []) := by
  refine ⟨?_, addPaths_append, addPaths_unchanged, removeSelected_sublist,
    removeSelected_eq_spec, fun _ => rfl⟩
  have main : ∀ (ops : List QOp) (q : List String), q.Nodup → (ops.foldl applyQOp q).Nodup := by
    intro ops
    induction ops with
    | nil => intro q h; exact h
    | cons op t ih =>
      intro q h
      rw [List.foldl_cons]
      apply ih
      cases op with
      | add ps => exact addPaths_nodup q ps h
      | removeSel sel => exact List.Nodup.sublist (removeSelected_sublist q sel) h
      | clearQ => exact List.nodup_nil
  exact fun ops => main ops [] List.nodup_nil

/-- Witness for C9 at concrete queues and operation sequences. -/
theorem claim_C9_queue_invariant_witness :
    (runQOps [QOp.add ["a", "b", "a", ""], QOp.removeSel [0], QOp.add ["b", "c"]]).Nodup ∧
    (∃ new, addPaths ["a"] ["a", "b"] = ["a"] ++ new ∧ ∀ p ∈ new, p ∉ ["a"]) ∧
    ((∀ p ∈ (["a", ""] : List String), p = "" ∨ p ∈ (["a", "b"] : List String)) ∧
      addPaths ["a", "b"] ["a", ""] = ["a", "b"]) ∧
    List.Sublist (removeSelected ["a", "b", "c"] [1]) ["a", "b", "c"] ∧
    ((["a", "b", "c", "d"] : List String).Nodup ∧
      List.Pairwise (· < ·) ([1, 3] : List Nat) ∧
      (∀ i ∈ ([1, 3] : List Nat), i < (["a", "b", "c", "d"] : List String).length) ∧
      removeSelected ["a", "b", "c", "d"] [1, 3] =
        removeSelectedSpec ["a", "b", "c", "d"] [1, 3]) ∧
    clearFiles ["x"] = [] :=
  ⟨claim_C9_queue_invariant.1 _,
   claim_C9_queue_invariant.2.1 _ _,
   ⟨by decide, claim_C9_queue_invariant.2.2.1 _ _ (by decide)⟩,
   claim_C9_queue_invariant.2.2.2.1 _ _,
   ⟨by decide, by decide, by decide,
    claim_C9_queue_invariant.2.2.2.2.1 _ _ (by decide) (by decide) (by decide)⟩,
   claim_C9_queue_invariant.2.2.2.2.2 _⟩


/-! ### Frame lemmas for the amended C10 -/

theorem stripChars_subset (l : List Char) : ∀ c ∈ stripChars l, c ∈ l := by
  intro c hc
  unfold stripChars at hc
  rw [List.mem_reverse] at hc
  have h1 : c ∈ (l.dropWhile Char.isWhitespace).reverse :=
    (List.dropWhile_sublist _).subset hc
  rw [List.mem_reverse] at h1
  exact (List.dropWhile_sublist _).subset h1

theorem sanitize_noSlash (s : String) : ∀ c ∈ (sanitize_basename s).data, c ≠ '/' := by
  intro c hc
  unfold sanitize_basename at hc
  dsimp only at hc
  by_cases he : stripChars (s.data.map (fun c => if c ∈ badChars then '_' else c)) = []
  · rw [if_pos he] at hc
    have harq : ∀ c ∈ ("arquivo".data), c ≠ '/' := by decide
    exact harq c hc
  · rw [if_neg he] at hc
    have h1 : c ∈ s.data.map (fun c => if c ∈ badChars then '_' else c) :=
      stripChars_subset _ c hc
    obtain ⟨a, _, rfl⟩ := List.mem_map.mp h1
    by_cases hb : a ∈ badChars
    · rw [if_pos hb]
      decide
    · rw [if_neg hb]
      intro hcc
      exact hb (hcc ▸ (by decide : '/' ∈ badChars))

theorem sanitize_ne_nil (s : String) : (sanitize_basename s).data ≠ [] := by
  unfold sanitize_basename
  dsimp only
  by_cases he : stripChars (s.data.map (fun c => if c ∈ badChars then '_' else c)) = []
  · rw [if_pos he]
    decide
  · rw [if_neg he]
    exact he

theorem pathName_noSlash_chars (p : String) : ∀ c ∈ (pathName p).data, c ≠ '/' := by
  intro c hc
  unfold pathName at hc
  rw [show (String.mk ((p.data.reverse.takeWhile (fun c => c != '/')).reverse)).data =
    (p.data.reverse.takeWhile (fun c => c != '/')).reverse from rfl] at hc
  rw [List.mem_reverse] at hc
  have := List.mem_takeWhile_imp hc
  simpa using this

theorem pyStem_noSlash (p : String) : ∀ c ∈ (pyStem p).data, c ≠ '/' := by
  intro c hc
  unfold pyStem at hc
  dsimp only at hc
  exact pathName_noSlash_chars p c (List.take_subset _ _ hc)

theorem natDigsF_noSlash : ∀ (fuel n : Nat), ∀ c ∈ natDigsF fuel n, c ≠ '/' := by
  intro fuel
  induction fuel with
  | zero => intro n c hc; simp [natDigsF] at hc
  | succ fuel ih =>
    intro n c hc
    have hd : ∀ m < 10, Nat.digitChar m ≠ '/' := by decide
    rw [natDigsF] at hc
    split at hc
    · next h10 =>
      rw [List.mem_singleton] at hc
      exact hc ▸ hd n h10
    · next h10 =>
      rcases List.mem_append.mp hc with h | h
      · exact ih (n / 10) c h
      · rw [List.mem_singleton] at h
        exact h ▸ hd (n % 10) (Nat.mod_lt _ (by omega))

theorem fmt03_noSlash (n : Nat) : ∀ c ∈ (fmt03 n).data, c ≠ '/' := by
  intro c hc
  unfold fmt03 at hc
  rw [show (String.mk ((if n < 10 then ['0', '0'] else if n < 100 then ['0'] else []) ++
    natDigs n)).data = (if n < 10 then ['0', '0'] else if n < 100 then ['0'] else []) ++
    natDigs n from rfl] at hc
  rcases List.mem_append.mp hc with h | h
  · split at h
    · fin_cases h <;> decide
    · split at h
      · fin_cases h <;> decide
      · simp at h
  · exact natDigsF_noSlash _ _ c h

theorem fileExt_dest_sanitized (D s E : String) (sfx : List Char)
    (hE : E.data = '.' :: sfx) (hs : ∀ c ∈ sfx, c ≠ '.' ∧ c ≠ '/') (h0 : sfx ≠ []) :
    fileExt (D ++ "/" ++ sanitize_basename s ++ E) = pyLower E := by
  have hrepr : D ++ "/" ++ sanitize_basename s ++ E =
      String.mk (D.data ++ '/' :: ((sanitize_basename s).data ++ '.' :: sfx)) :=
    String.ext (by simp [String.data_append, hE])
  rw [hrepr, fileExt_mk_name _ _ _ (sanitize_noSlash s) hs h0,
    if_neg (sanitize_ne_nil s)]
  exact congrArg pyLower (String.ext hE.symm)

theorem fileExt_dest_stem (D p E : String) (sfx : List Char)
    (hE : E.data = '.' :: sfx) (hs : ∀ c ∈ sfx, c ≠ '.' ∧ c ≠ '/') (h0 : sfx ≠ []) :
    fileExt (D ++ "/" ++ pyStem p ++ E) =
      if (pyStem p).data = [] then "" else pyLower E := by
  have hrepr : D ++ "/" ++ pyStem p ++ E =
      String.mk (D.data ++ '/' :: ((pyStem p).data ++ '.' :: sfx)) :=
    String.ext (by simp [String.data_append, hE])
  rw [hrepr, fileExt_mk_name _ _ _ (pyStem_noSlash p) hs h0]
  by_cases hb : (pyStem p).data = []
  · rw [if_pos hb, if_pos hb]
  · rw [if_neg hb, if_neg hb]
    exact congrArg pyLower (String.ext hE.symm)

theorem fileExt_pagefile (D s E : String) (i : Nat) (sfx : List Char)
    (hE : E.data = '.' :: sfx) (hs : ∀ c ∈ sfx, c ≠ '.' ∧ c ≠ '/') (h0 : sfx ≠ []) :
    fileExt (D ++ "/" ++ sanitize_basename s ++ "-" ++ fmt03 i ++ E) = pyLower E := by
  have hrepr : D ++ "/" ++ sanitize_basename s ++ "-" ++ fmt03 i ++ E =
      String.mk (D.data ++ '/' ::
        (((sanitize_basename s).data ++ '-' :: (fmt03 i).data) ++ '.' :: sfx)) :=
    String.ext (by simp [String.data_append, hE])
  rw [hrepr, fileExt_mk_name _ _ _ ?hb hs h0, if_neg ?hne]
  · exact congrArg pyLower (String.ext hE.symm)
  case hb =>
    intro cc hcc
    rcases List.mem_append.mp hcc with h | h
    · exact sanitize_noSlash s cc h
    · rcases List.mem_cons.mp h with rfl | h
      · decide
      · exact fmt03_noSlash i cc h
  case hne =>
    intro hc
    exact sanitize_ne_nil s (List.append_eq_nil.mp hc).1

theorem FS.existsF_write_mono (fs : FS) (p q : String) (b : Bytes)
    (h : fs.existsF q = true) : (fs.write p b).existsF q = true := by
  by_cases hq : q = p
  · subst hq
    exact FS.existsF_write_self fs q b
  · rw [FS.existsF_write_ne _ _ _ _ hq]
    exact h

theorem pdf_to_text_frame (env : Env) (fs : FS) (inp out q : String) (h : q ≠ out) :
    (pdf_to_text_pymupdf env fs inp out).1.read q = fs.read q := by
  unfold pdf_to_text_pymupdf
  split_ifs <;> dsimp only <;>
    first
      | rfl
      | rw [read_safe_mkdir]
      | rw [FS.read_write_ne _ _ _ _ h, read_safe_mkdir]

theorem pdf_to_text_existsF (env : Env) (fs : FS) (inp out q : String)
    (h : fs.existsF q = true) :
    (pdf_to_text_pymupdf env fs inp out).1.existsF q = true := by
  unfold pdf_to_text_pymupdf
  split_ifs <;> dsimp only <;>
    first
      | exact h
      | (rw [existsF_safe_mkdir]; exact h)
      | (apply FS.existsF_write_mono; rw [existsF_safe_mkdir]; exact h)

theorem pdf_to_text_dirs (env : Env) (fs : FS) (inp out d : String) (h : d ∈ fs.dirs) :
    d ∈ (pdf_to_text_pymupdf env fs inp out).1.dirs := by
  unfold pdf_to_text_pymupdf
  split_ifs <;> dsimp only <;>
    first
      | exact h
      | exact mem_dirs_safe_mkdir _ _ _ h

theorem convert_image_file_frame (env : Env) (fs : FS) (inp out fmt : String)
    (quality : Nat) (q : String) (h : q ≠ out) :
    (convert_image_file env fs inp out fmt quality).1.read q = fs.read q := by
  unfold convert_image_file
  split_ifs <;> dsimp only <;>
    first
      | rw [read_safe_mkdir]
      | rw [FS.read_write_ne _ _ _ _ h, read_safe_mkdir]

theorem convert_image_file_existsF (env : Env) (fs : FS) (inp out fmt : String)
    (quality : Nat) (q : String) (h : fs.existsF q = true) :
    (convert_image_file env fs inp out fmt quality).1.existsF q = true := by
  unfold convert_image_file
  split_ifs <;> dsimp only <;>
    first
      | (rw [existsF_safe_mkdir]; exact h)
      | (apply FS.existsF_write_mono; rw [existsF_safe_mkdir]; exact h)

theorem convert_image_file_dirs (env : Env) (fs : FS) (inp out fmt : String)
    (quality : Nat) (d : String) (h : d ∈ fs.dirs) :
    d ∈ (convert_image_file env fs inp out fmt quality).1.dirs := by
  unfold convert_image_file
  split_ifs <;> dsimp only <;> exact mem_dirs_safe_mkdir _ _ _ h

theorem image_to_pdf_frame (env : Env) (fs : FS) (inp out q : String) (h : q ≠ out) :
    (image_to_pdf env fs inp out).1.read q = fs.read q := by
  unfold image_to_pdf
  split_ifs <;> dsimp only <;>
    first
      | rw [read_safe_mkdir]
      | rw [FS.read_write_ne _ _ _ _ h, read_safe_mkdir]

theorem image_to_pdf_existsF (env : Env) (fs : FS) (inp out q : String)
    (h : fs.existsF q = true) :
    (image_to_pdf env fs inp out).1.existsF q = true := by
  unfold image_to_pdf
  split_ifs <;> dsimp only <;>
    first
      | (rw [existsF_safe_mkdir]; exact h)
      | (apply FS.existsF_write_mono; rw [existsF_safe_mkdir]; exact h)

theorem image_to_pdf_dirs (env : Env) (fs : FS) (inp out d : String) (h : d ∈ fs.dirs) :
    d ∈ (image_to_pdf env fs inp out).1.dirs := by
  unfold image_to_pdf
  split_ifs <;> dsimp only <;> exact mem_dirs_safe_mkdir _ _ _ h

theorem office_to_pdf_spec (env : Env) (fs : FS) (inp out : String) :
    (∀ q, q ≠ out ++ "/" ++ env.officeProducedName inp →
      (office_to_pdf env fs inp out).1.read q = fs.read q) ∧
    (∀ q, fs.existsF q = true → (office_to_pdf env fs inp out).1.existsF q = true) ∧
    (∀ p, (office_to_pdf env fs inp out).2 = Except.ok p →
      p = out ++ "/" ++ pyStem inp ++ ".pdf" ∨ p = out ++ "/" ++ pyStem inp ++ ".PDF") ∧
    (∀ d ∈ fs.dirs, d ∈ (office_to_pdf env fs inp out).1.dirs) := by
  unfold office_to_pdf
  cases hw : (env.which "soffice").orElse (fun x => env.which "libreoffice") with
  | none => exact ⟨fun q _ => rfl, fun q h => h, fun p hp => by simp at hp, fun d h => h⟩
  | some w =>
    dsimp only
    split_ifs with hrun hex1 hex2
    · refine ⟨fun q hq => ?_, fun q h => ?_, fun p hp => ?_, fun d h => ?_⟩
      · rw [FS.read_write_ne _ _ _ _ hq, read_safe_mkdir]
      · apply FS.existsF_write_mono
        rw [existsF_safe_mkdir]
        exact h
      · simp only [Except.ok.injEq] at hp
        exact Or.inl hp.symm
      · exact mem_dirs_safe_mkdir _ _ _ h
    · simp only [List.nil_append]
      refine ⟨fun q hq => ?_, fun q h => ?_, fun p hp => ?_, fun d h => ?_⟩
      · rw [FS.read_write_ne _ _ _ _ hq, read_safe_mkdir]
      · apply FS.existsF_write_mono
        rw [existsF_safe_mkdir]
        exact h
      · simp only [Except.ok.injEq] at hp
        exact Or.inr hp.symm
      · exact mem_dirs_safe_mkdir _ _ _ h
    · simp only [List.nil_append]
      refine ⟨fun q hq => ?_, fun q h => ?_, fun p hp => ?_, fun d h => ?_⟩
      · rw [FS.read_write_ne _ _ _ _ hq, read_safe_mkdir]
      · apply FS.existsF_write_mono
        rw [existsF_safe_mkdir]
        exact h
      · simp at hp
      · exact mem_dirs_safe_mkdir _ _ _ h
    · refine ⟨fun q hq => ?_, fun q h => ?_, fun p hp => ?_, fun d h => ?_⟩
      · exact read_safe_mkdir fs out q
      · rw [existsF_safe_mkdir]
        exact h
      · simp at hp
      · exact mem_dirs_safe_mkdir _ _ _ h

theorem rasterPages_frame (env : Env) (pdf out_dir fmt : String) (dpi quality : Nat)
    (pref q : String)
    (hq : ∀ j : Nat, q ≠ out_dir ++ "/" ++ pref ++ "-" ++ fmt03 j ++ ".png" ∧
      q ≠ out_dir ++ "/" ++ pref ++ "-" ++ fmt03 j ++ "." ++ fmt) :
    ∀ (L : List Nat) (fs : FS),
      (rasterPages env pdf out_dir fmt dpi quality pref L fs).1.read q = fs.read q ∧
      (∀ d ∈ fs.dirs, d ∈ (rasterPages env pdf out_dir fmt dpi quality pref L fs).1.dirs) := by
  intro L
  induction L with
  | nil => exact fun fs => ⟨rfl, fun d h => h⟩
  | cons i rest ih =>
    intro fs
    simp only [rasterPages]
    by_cases hpng : fmt = "png"
    · rw [if_pos hpng]
      dsimp only
      obtain ⟨A, B⟩ := ih
        (fs.write (out_dir ++ "/" ++ pref ++ "-" ++ fmt03 i ++ ".png")
          (env.renderPage pdf dpi i))
      refine ⟨?_, ?_⟩
      · rw [A, FS.read_write_ne _ _ _ _ (hq i).1]
      · intro d h
        exact B d h
    · rw [if_neg hpng]
      rcases hcif : convert_image_file env
        (fs.write (out_dir ++ "/" ++ pref ++ "-" ++ fmt03 i ++ ".png")
          (env.renderPage pdf dpi i))
        (out_dir ++ "/" ++ pref ++ "-" ++ fmt03 i ++ ".png")
        (out_dir ++ "/" ++ pref ++ "-" ++ fmt03 i ++ "." ++ fmt) fmt quality
        with ⟨fs2, e⟩
      have hfr : fs2.read q =
          (fs.write (out_dir ++ "/" ++ pref ++ "-" ++ fmt03 i ++ ".png")
            (env.renderPage pdf dpi i)).read q := by
        have := convert_image_file_frame env
          (fs.write (out_dir ++ "/" ++ pref ++ "-" ++ fmt03 i ++ ".png")
            (env.renderPage pdf dpi i))
          (out_dir ++ "/" ++ pref ++ "-" ++ fmt03 i ++ ".png")
          (out_dir ++ "/" ++ pref ++ "-" ++ fmt03 i ++ "." ++ fmt) fmt quality q (hq i).2
        rw [hcif] at this
        exact this
      have hdirs2 : ∀ d ∈ fs.dirs, d ∈ fs2.dirs := by
        intro d h
        have := convert_image_file_dirs env
          (fs.write (out_dir ++ "/" ++ pref ++ "-" ++ fmt03 i ++ ".png")
            (env.renderPage pdf dpi i))
          (out_dir ++ "/" ++ pref ++ "-" ++ fmt03 i ++ ".png")
          (out_dir ++ "/" ++ pref ++ "-" ++ fmt03 i ++ "." ++ fmt) fmt quality d h
        rw [hcif] at this
        exact this
      cases e with
      | some err =>
        dsimp only
        refine ⟨?_, hdirs2⟩
        rw [hfr, FS.read_write_ne _ _ _ _ (hq i).1]
      | none =>
        dsimp only
        by_cases hu : env.unlinkOk (out_dir ++ "/" ++ pref ++ "-" ++ fmt03 i ++ ".png") = true
        · rw [if_pos hu]
          dsimp only
          obtain ⟨A, B⟩ := ih
            (fs2.unlink (out_dir ++ "/" ++ pref ++ "-" ++ fmt03 i ++ ".png"))
          refine ⟨?_, ?_⟩
          · rw [A, FS.read_unlink_ne _ _ _ (hq i).1, hfr,
              FS.read_write_ne _ _ _ _ (hq i).1]
          · intro d h
            exact B d (hdirs2 d h)
        · rw [if_neg hu]
          dsimp only
          obtain ⟨A, B⟩ := ih fs2
          refine ⟨?_, ?_⟩
          · rw [A, hfr, FS.read_write_ne _ _ _ _ (hq i).1]
          · intro d h
            exact B d (hdirs2 d h)

theorem pdf_to_images_frame (env : Env) (fs : FS) (pdf_path out_dir fmt : String)
    (dpi quality : Nat) (pref q : String)
    (hq : ∀ j : Nat, q ≠ out_dir ++ "/" ++ pref ++ "-" ++ fmt03 j ++ ".png" ∧
      q ≠ out_dir ++ "/" ++ pref ++ "-" ++ fmt03 j ++ "." ++ fmt) :
    (pdf_to_images_pymupdf env fs pdf_path out_dir fmt dpi quality pref).1.read q =
      fs.read q ∧
    (∀ d ∈ fs.dirs,
      d ∈ (pdf_to_images_pymupdf env fs pdf_path out_dir fmt dpi quality pref).1.dirs) := by
  unfold pdf_to_images_pymupdf
  split_ifs <;> dsimp only
  · obtain ⟨A, B⟩ := rasterPages_frame env pdf_path out_dir fmt dpi quality pref q hq
      ((List.range (env.npages pdf_path)).map (fun x => x + 1)) (safe_mkdir fs out_dir)
    refine ⟨?_, ?_⟩
    · rw [A, read_safe_mkdir]
    · intro d h
      exact B d (mem_dirs_safe_mkdir _ _ _ h)
  · exact ⟨read_safe_mkdir _ _ _, fun d h => mem_dirs_safe_mkdir _ _ _ h⟩
  · exact ⟨rfl, fun d h => h⟩

theorem path_ne_of_ext {p : String} (f : String) (hf : fileExt f ≠ fileExt p) : f ≠ p :=
  fun hc => hf (hc ▸ rfl)

set_option maxHeartbeats 4000000 in
/-- C10 (amended): for every job, the per-file step creates the destination
directory (the per-file subfolder when enabled, else the output base), never
deletes the source file, and leaves the source file's contents unchanged
whenever the canonical output path `DEST/BASE.fmt` differs from the source
path itself. (The original claim — that no conversion path ever modifies the
source — is refuted by `claim_C10_counterexample`: a same-format image
conversion whose output path coincides with the source path re-encodes over
the source in place.) Hypotheses: the source file exists, and the office
adapter's produced file name is slash-free with a `.pdf` extension, as the
real office suite guarantees. -/
theorem claim_C10_amended (env : Env) (fmt : String) (sub : Bool) (outBase : String)
    (dpi quality : Nat) (fs : FS) (f : String)
    (hex : fs.existsF f = true)
    (hpn : ∀ p c, c ∈ (env.officeProducedName p).data → c ≠ '/')
    (hpp : ∀ p, fileExt (env.officeProducedName p) = ".pdf") :
    ((if sub then outBase ++ "/" ++ sanitize_basename (pyStem f) else outBase) ∈
      (convertOne env fmt sub outBase dpi quality fs f).fs.dirs) ∧
    (convertOne env fmt sub outBase dpi quality fs f).fs.existsF f = true ∧
    ((if sub then outBase ++ "/" ++ sanitize_basename (pyStem f) else outBase) ++ "/" ++
        sanitize_basename (pyStem f) ++ "." ++ fmt ≠ f →
      (convertOne env fmt sub outBase dpi quality fs f).fs.read f = fs.read f) := by
  have hD : (if sub then outBase ++ "/" ++ sanitize_basename (pyStem f) else outBase) ∈
      (safe_mkdir fs (if sub then outBase ++ "/" ++ sanitize_basename (pyStem f)
        else outBase)).dirs := mem_dirs_safe_mkdir_self fs _
  have hexD : (safe_mkdir fs (if sub then outBase ++ "/" ++ sanitize_basename (pyStem f)
      else outBase)).existsF f = true := by
    rw [existsF_safe_mkdir]
    exact hex
  have hrdD : ∀ q, (safe_mkdir fs (if sub then outBase ++ "/" ++
      sanitize_basename (pyStem f) else outBase)).read q = fs.read q :=
    fun q => read_safe_mkdir fs _ q
  unfold convertOne
  rw [if_neg (by simp [hex])]
  dsimp only
  by_cases h1 : fmt = "txt"
  · rw [if_pos h1]
    by_cases h2 : fileExt f ≠ ".pdf"
    · rw [if_pos h2]
      exact ⟨hD, hexD, fun _ => hrdD f⟩
    · rw [if_neg h2]
      have h3 : fileExt f = ".pdf" := not_not.mp h2
      have e1 : fileExt ((if sub then outBase ++ "/" ++ sanitize_basename (pyStem f)
          else outBase) ++ "/" ++ sanitize_basename (pyStem f) ++ ".txt") = ".txt" :=
        (fileExt_dest_sanitized _ (pyStem f) ".txt" ['t', 'x', 't'] rfl (by decide)
          (by decide)).trans (by decide)
      have hne_out : f ≠ (if sub then outBase ++ "/" ++ sanitize_basename (pyStem f)
          else outBase) ++ "/" ++ sanitize_basename (pyStem f) ++ ".txt" :=
        path_ne_of_ext f (by rw [h3, e1]; decide)
      rcases hpt : pdf_to_text_pymupdf env
        (safe_mkdir fs (if sub then outBase ++ "/" ++ sanitize_basename (pyStem f)
          else outBase)) f
        ((if sub then outBase ++ "/" ++ sanitize_basename (pyStem f) else outBase) ++
          "/" ++ sanitize_basename (pyStem f) ++ ".txt") with ⟨fs2, e⟩
      have hrd : fs2.read f = fs.read f := by
        have := pdf_to_text_frame env
          (safe_mkdir fs (if sub then outBase ++ "/" ++ sanitize_basename (pyStem f)
            else outBase)) f
          ((if sub then outBase ++ "/" ++ sanitize_basename (pyStem f) else outBase) ++
            "/" ++ sanitize_basename (pyStem f) ++ ".txt") f hne_out
        rw [hpt] at this
        rw [this]
        exact hrdD f
      have hx2 : fs2.existsF f = true := by
        have := pdf_to_text_existsF env
          (safe_mkdir fs (if sub then outBase ++ "/" ++ sanitize_basename (pyStem f)
            else outBase)) f
          ((if sub then outBase ++ "/" ++ sanitize_basename (pyStem f) else outBase) ++
            "/" ++ sanitize_basename (pyStem f) ++ ".txt") f hexD
        rw [hpt] at this
        exact this
      have hd2 : (if sub then outBase ++ "/" ++ sanitize_basename (pyStem f)
          else outBase) ∈ fs2.dirs := by
        have := pdf_to_text_dirs env
          (safe_mkdir fs (if sub then outBase ++ "/" ++ sanitize_basename (pyStem f)
            else outBase)) f
          ((if sub then outBase ++ "/" ++ sanitize_basename (pyStem f) else outBase) ++
            "/" ++ sanitize_basename (pyStem f) ++ ".txt")
          (if sub then outBase ++ "/" ++ sanitize_basename (pyStem f) else outBase) hD
        rw [hpt] at this
        exact this
      cases e <;> exact ⟨hd2, hx2, fun _ => hrd⟩
  · rw [if_neg h1]
    by_cases h2 : fmt = "pdf"
    · rw [if_pos h2]
      by_cases h3 : fileExt f = ".pdf"
      · rw [if_pos h3]
        by_cases hsame : (if sub then outBase ++ "/" ++
            sanitize_basename (pyStem f) else outBase) ++ "/" ++
            sanitize_basename (pyStem f) ++ ".pdf" = f
        · rw [if_pos hsame]
          exact ⟨hD, hexD, fun _ => hrdD f⟩
        · rw [if_neg hsame]
          refine ⟨hD, ?_, fun _ => ?_⟩
          · exact FS.existsF_write_mono _ _ _ _ hexD
          · rw [FS.read_write_ne _ _ _ _ (fun hc => hsame hc.symm), hrdD f]
      · rw [if_neg h3]
        by_cases h4 : fileExt f ∈ IMAGE_EXTS
        · rw [if_pos h4]
          have hne_out : f ≠ (if sub then outBase ++ "/" ++
              sanitize_basename (pyStem f) else outBase) ++ "/" ++
              sanitize_basename (pyStem f) ++ ".pdf" := by
            intro hc
            apply h3
            rw [hc]
            exact (fileExt_dest_sanitized _ (pyStem f) ".pdf" ['p', 'd', 'f'] rfl
              (by decide) (by decide)).trans (by decide)
          rcases himg : image_to_pdf env
            (safe_mkdir fs (if sub then outBase ++ "/" ++
              sanitize_basename (pyStem f) else outBase)) f
            ((if sub then outBase ++ "/" ++ sanitize_basename (pyStem f) else outBase) ++
              "/" ++ sanitize_basename (pyStem f) ++ ".pdf") with ⟨fs2, e⟩
          have hrd : fs2.read f = fs.read f := by
            have := image_to_pdf_frame env
              (safe_mkdir fs (if sub then outBase ++ "/" ++
                sanitize_basename (pyStem f) else outBase)) f
              ((if sub then outBase ++ "/" ++ sanitize_basename (pyStem f)
                else outBase) ++ "/" ++ sanitize_basename (pyStem f) ++ ".pdf")
              f hne_out
            rw [himg] at this
            rw [this]
            exact hrdD f
          have hx2 : fs2.existsF f = true := by
            have := image_to_pdf_existsF env
              (safe_mkdir fs (if sub then outBase ++ "/" ++
                sanitize_basename (pyStem f) else outBase)) f
              ((if sub then outBase ++ "/" ++ sanitize_basename (pyStem f)
                else outBase) ++ "/" ++ sanitize_basename (pyStem f) ++ ".pdf")
              f hexD
            rw [himg] at this
            exact this
          have hd2 : (if sub then outBase ++ "/" ++ sanitize_basename (pyStem f)
              else outBase) ∈ fs2.dirs := by
            have := image_to_pdf_dirs env
              (safe_mkdir fs (if sub then outBase ++ "/" ++
                sanitize_basename (pyStem f) else outBase)) f
              ((if sub then outBase ++ "/" ++ sanitize_basename (pyStem f)
                else outBase) ++ "/" ++ sanitize_basename (pyStem f) ++ ".pdf")
              (if sub then outBase ++ "/" ++ sanitize_basename (pyStem f) else outBase)
              hD
            rw [himg] at this
            exact this
          cases e <;> exact ⟨hd2, hx2, fun _ => hrd⟩
        · rw [if_neg h4]
          by_cases h5 : fileExt f ∈ OFFICE_EXTS
          · rw [if_pos h5]
            obtain ⟨OF1, OF2, OF3, OF4⟩ := office_to_pdf_spec env
              (safe_mkdir fs (if sub then outBase ++ "/" ++
                sanitize_basename (pyStem f) else outBase)) f
              (if sub then outBase ++ "/" ++ sanitize_basename (pyStem f) else outBase)
            have hne_w : f ≠ (if sub then outBase ++ "/" ++
                sanitize_basename (pyStem f) else outBase) ++ "/" ++
                env.officeProducedName f := by
              intro hc
              apply h3
              rw [hc, fileExt_slash_concat _ _ (fun c hcc => hpn f c hcc)]
              exact hpp f
            have hne_opdf : f ≠ (if sub then outBase ++ "/" ++
                sanitize_basename (pyStem f) else outBase) ++ "/" ++
                sanitize_basename (pyStem f) ++ ".pdf" := by
              intro hc
              apply h3
              rw [hc]
              exact (fileExt_dest_sanitized _ (pyStem f) ".pdf" ['p', 'd', 'f'] rfl
                (by decide) (by decide)).trans (by decide)
            rcases hoff : office_to_pdf env
              (safe_mkdir fs (if sub then outBase ++ "/" ++
                sanitize_basename (pyStem f) else outBase)) f
              (if sub then outBase ++ "/" ++ sanitize_basename (pyStem f) else outBase)
              with ⟨fs2, res⟩
            have hrd : fs2.read f = fs.read f := by
              have := OF1 f hne_w
              rw [hoff] at this
              rw [this]
              exact hrdD f
            have hx2 : fs2.existsF f = true := by
              have := OF2 f hexD
              rw [hoff] at this
              exact this
            have hd2 : (if sub then outBase ++ "/" ++ sanitize_basename (pyStem f)
                else outBase) ∈ fs2.dirs := by
              have := OF4 _ hD
              rw [hoff] at this
              exact this
            cases res with
            | error e => exact ⟨hd2, hx2, fun _ => hrd⟩
            | ok produced =>
              dsimp only
              have hcand : produced = (if sub then outBase ++ "/" ++
                  sanitize_basename (pyStem f) else outBase) ++ "/" ++
                  pyStem f ++ ".pdf" ∨ produced = (if sub then outBase ++ "/" ++
                  sanitize_basename (pyStem f) else outBase) ++ "/" ++
                  pyStem f ++ ".PDF" := by
                apply OF3
                rw [hoff]
              have hne_prod : f ≠ produced := by
                intro hc
                rcases hcand with hpr | hpr
                · have e2 := fileExt_dest_stem (if sub then outBase ++ "/" ++
                    sanitize_basename (pyStem f) else outBase) f ".pdf"
                    ['p', 'd', 'f'] rfl (by decide) (by decide)
                  rw [← hpr, ← hc] at e2
                  by_cases hstem : (pyStem f).data = []
                  · rw [if_pos hstem] at e2
                    rw [e2] at h5
                    exact absurd h5 (by decide)
                  · rw [if_neg hstem] at e2
                    apply h3
                    rw [e2]
                    decide
                · have e2 := fileExt_dest_stem (if sub then outBase ++ "/" ++
                    sanitize_basename (pyStem f) else outBase) f ".PDF"
                    ['P', 'D', 'F'] rfl (by decide) (by decide)
                  rw [← hpr, ← hc] at e2
                  by_cases hstem : (pyStem f).data = []
                  · rw [if_pos hstem] at e2
                    rw [e2] at h5
                    exact absurd h5 (by decide)
                  · rw [if_neg hstem] at e2
                    apply h3
                    rw [e2]
                    decide
              by_cases hrn : produced ≠ (if sub then outBase ++ "/" ++
                  sanitize_basename (pyStem f) else outBase) ++ "/" ++
                  sanitize_basename (pyStem f) ++ ".pdf" ∧ fs2.existsF produced = true
              · rw [if_pos hrn]
                by_cases hc2 : fs2.existsF ((if sub then outBase ++ "/" ++
                    sanitize_basename (pyStem f) else outBase) ++ "/" ++
                    sanitize_basename (pyStem f) ++ ".pdf") = true
                · rw [if_pos hc2]
                  refine ⟨hd2, ?_, fun _ => ?_⟩
                  · apply FS.existsF_write_mono
                    rw [FS.existsF_unlink_ne _ _ _ hne_prod,
                      FS.existsF_unlink_ne _ _ _ hne_opdf]
                    exact hx2
                  · rw [FS.read_write_ne _ _ _ _ hne_opdf,
                      FS.read_unlink_ne _ _ _ hne_prod,
                      FS.read_unlink_ne _ _ _ hne_opdf]
                    exact hrd
                · rw [if_neg hc2]
                  refine ⟨hd2, ?_, fun _ => ?_⟩
                  · apply FS.existsF_write_mono
                    rw [FS.existsF_unlink_ne _ _ _ hne_prod]
                    exact hx2
                  · rw [FS.read_write_ne _ _ _ _ hne_opdf,
                      FS.read_unlink_ne _ _ _ hne_prod]
                    exact hrd
              · rw [if_neg hrn]
                exact ⟨hd2, hx2, fun _ => hrd⟩
          · rw [if_neg h5]
            exact ⟨hD, hexD, fun _ => hrdD f⟩
    · rw [if_neg h2]
      by_cases h3 : fileExt f = ".pdf"
      · rw [if_pos h3]
        by_cases h4 : fmt ∈ RASTER_FORMATS
        · rw [if_pos h4]
          have hfm : (∀ c ∈ fmt.data, c ≠ '.' ∧ c ≠ '/') ∧ fmt.data ≠ [] ∧
              pyLower ("." ++ fmt) ≠ ".pdf" ∧ pyLower ".png" ≠ ".pdf" := by
            simp only [RASTER_FORMATS, List.mem_cons, List.not_mem_nil, or_false] at h4
            rcases h4 with rfl | rfl | rfl | rfl | rfl <;>
              exact ⟨by decide, by decide, by decide, by decide⟩
          have hq : ∀ j : Nat,
              f ≠ (if sub then outBase ++ "/" ++ sanitize_basename (pyStem f)
                else outBase) ++ "/" ++ sanitize_basename (pyStem f) ++ "-" ++
                fmt03 j ++ ".png" ∧
              f ≠ (if sub then outBase ++ "/" ++ sanitize_basename (pyStem f)
                else outBase) ++ "/" ++ sanitize_basename (pyStem f) ++ "-" ++
                fmt03 j ++ "." ++ fmt := by
            intro j
            constructor
            · intro hc
              have e2 := fileExt_pagefile (if sub then outBase ++ "/" ++
                sanitize_basename (pyStem f) else outBase) (pyStem f) ".png" j
                ['p', 'n', 'g'] rfl (by decide) (by decide)
              rw [← hc, h3] at e2
              exact hfm.2.2.2 e2.symm
            · intro hc
              rw [String.append_assoc] at hc
              have e2 := fileExt_pagefile (if sub then outBase ++ "/" ++
                sanitize_basename (pyStem f) else outBase) (pyStem f) ("." ++ fmt) j
                fmt.data (by simp [String.data_append]) hfm.1 hfm.2.1
              rw [← hc, h3] at e2
              exact hfm.2.2.1 e2.symm
          rcases hpi : pdf_to_images_pymupdf env
            (safe_mkdir fs (if sub then outBase ++ "/" ++
              sanitize_basename (pyStem f) else outBase)) f
            (if sub then outBase ++ "/" ++ sanitize_basename (pyStem f) else outBase)
            fmt dpi quality (sanitize_basename (pyStem f)) with ⟨fs2, outs, unl, e⟩
          obtain ⟨A, B⟩ := pdf_to_images_frame env
            (safe_mkdir fs (if sub then outBase ++ "/" ++
              sanitize_basename (pyStem f) else outBase)) f
            (if sub then outBase ++ "/" ++ sanitize_basename (pyStem f) else outBase)
            fmt dpi quality (sanitize_basename (pyStem f)) f hq
          rw [hpi] at A B
          have hrd : fs2.read f = fs.read f := by
            rw [show (fs2, outs, unl, e).1 = fs2 from rfl] at A
            rw [A]
            exact hrdD f
          have hx2 : fs2.existsF f = true := by
            unfold FS.existsF
            rw [show (fs2, outs, unl, e).1 = fs2 from rfl] at A
            rw [A]
            exact hexD
          have hd2 : (if sub then outBase ++ "/" ++ sanitize_basename (pyStem f)
              else outBase) ∈ fs2.dirs := by
            have := B _ hD
            rw [show (fs2, outs, unl, e).1 = fs2 from rfl] at this
            exact this
          cases e <;> exact ⟨hd2, hx2, fun _ => hrd⟩
        · rw [if_neg h4]
          exact ⟨hD, hexD, fun _ => hrdD f⟩
      · rw [if_neg h3]
        by_cases h4 : fileExt f ∈ IMAGE_EXTS
        · rw [if_pos h4]
          rcases hci : convert_image_file env
            (safe_mkdir fs (if sub then outBase ++ "/" ++
              sanitize_basename (pyStem f) else outBase)) f
            ((if sub then outBase ++ "/" ++ sanitize_basename (pyStem f) else outBase) ++
              "/" ++ sanitize_basename (pyStem f) ++ "." ++ fmt) fmt quality
            with ⟨fs2, e⟩
          have hx2 : fs2.existsF f = true := by
            have := convert_image_file_existsF env
              (safe_mkdir fs (if sub then outBase ++ "/" ++
                sanitize_basename (pyStem f) else outBase)) f
              ((if sub then outBase ++ "/" ++ sanitize_basename (pyStem f)
                else outBase) ++ "/" ++ sanitize_basename (pyStem f) ++ "." ++ fmt)
              fmt quality f hexD
            rw [hci] at this
            exact this
          have hd2 : (if sub then outBase ++ "/" ++ sanitize_basename (pyStem f)
              else outBase) ∈ fs2.dirs := by
            have := convert_image_file_dirs env
              (safe_mkdir fs (if sub then outBase ++ "/" ++
                sanitize_basename (pyStem f) else outBase)) f
              ((if sub then outBase ++ "/" ++ sanitize_basename (pyStem f)
                else outBase) ++ "/" ++ sanitize_basename (pyStem f) ++ "." ++ fmt)
              fmt quality
              (if sub then outBase ++ "/" ++ sanitize_basename (pyStem f) else outBase)
              hD
            rw [hci] at this
            exact this
          have hrd : (if sub then outBase ++ "/" ++ sanitize_basename (pyStem f)
                else outBase) ++ "/" ++ sanitize_basename (pyStem f) ++ "." ++ fmt ≠ f →
              fs2.read f = fs.read f := by
            intro hne
            have := convert_image_file_frame env
              (safe_mkdir fs (if sub then outBase ++ "/" ++
                sanitize_basename (pyStem f) else outBase)) f
              ((if sub then outBase ++ "/" ++ sanitize_basename (pyStem f)
                else outBase) ++ "/" ++ sanitize_basename (pyStem f) ++ "." ++ fmt)
              fmt quality f (Ne.symm hne)
            rw [hci] at this
            rw [this]
            exact hrdD f
          cases e <;> exact ⟨hd2, hx2, hrd⟩
        · rw [if_neg h4]
          by_cases h5 : fileExt f ∈ OFFICE_EXTS
          · rw [if_pos h5]
            exact ⟨hD, hexD, fun _ => hrdD f⟩
          · rw [if_neg h5]
            exact ⟨hD, hexD, fun _ => hrdD f⟩

/-- C10 counterexample: with the output directory equal to the source's
directory, the per-file subfolder disabled, and a jpg→jpg conversion, the
job succeeds and `convert_image_file` writes the re-encoded image over the
source path, so the source file's contents change — refuting "no
conversion path ever deletes or modifies the source file". -/
theorem claim_C10_counterexample :
    (convertAll okEnv "jpg" false "/in" 200 90 fsA ["/in/photo.jpg"]).okCount = 1 ∧
    (convertAll okEnv "jpg" false "/in" 200 90 fsA
        ["/in/photo.jpg"]).fs.read "/in/photo.jpg" ≠ fsA.read "/in/photo.jpg" := by
  decide

/-- Witness for the amended C10 on a concrete job. -/
theorem claim_C10_amended_witness :
    (fsA.existsF "/in/photo.jpg" = true ∧
      (∀ p c, c ∈ (okEnv.officeProducedName p).data → c ≠ '/') ∧
      (∀ p, fileExt (okEnv.officeProducedName p) = ".pdf")) ∧
    (((if true then "/out" ++ "/" ++ sanitize_basename (pyStem "/in/photo.jpg")
        else "/out") ∈
      (convertOne okEnv "jpg" true "/out" 200 90 fsA "/in/photo.jpg").fs.dirs) ∧
    (convertOne okEnv "jpg" true "/out" 200 90 fsA "/in/photo.jpg").fs.existsF
        "/in/photo.jpg" = true ∧
    ((if true then "/out" ++ "/" ++ sanitize_basename (pyStem "/in/photo.jpg")
        else "/out") ++ "/" ++ sanitize_basename (pyStem "/in/photo.jpg") ++ "." ++
        "jpg" ≠ "/in/photo.jpg" →
      (convertOne okEnv "jpg" true "/out" 200 90 fsA "/in/photo.jpg").fs.read
          "/in/photo.jpg" = fsA.read "/in/photo.jpg")) :=
  ⟨⟨by decide,
    fun _ c hc => (by decide : ∀ x ∈ ("Doc.PDF".data), x ≠ '/') c hc,
    fun _ => (by decide : fileExt "Doc.PDF" = ".pdf")⟩,
   claim_C10_amended okEnv "jpg" true "/out" 200 90 fsA "/in/photo.jpg" (by decide)
     (fun _ c hc => (by decide : ∀ x ∈ ("Doc.PDF".data), x ≠ '/') c hc)
     (fun _ => (by decide : fileExt "Doc.PDF" = ".pdf"))⟩

end Conversor
